import Mathlib

/-!
# Verification of the NATSS dispatcher (`pkg/dispatcher/dispatcher.go`)

A shallow embedding of the subscription supervisor: the subscription
registry mutated by `UpdateSubscriptions` / `subscribe` / `unsubscribe`,
the host-to-channel router built by `newHostNameToChannelRefMap` and
installed by `ProcessChannels`, the HTTP receive path
(`messageReceiverFunc`) and the delivery callback (`mcb` inside
`subscribe`).

Backend effects (the stan connection, `Subscribe`, `Unsubscribe`,
`Send`, `Ack`) are modelled by an explicit environment describing each
call's outcome, and every operation additionally returns the list of
backend events it performed, so that statements about "zero backend
subscribe operations" or "Unsubscribe attempted exactly once" can be
made about the trace.

Go maps are embedded as association lists whose keys are unique; the
predicate `RegistryWF` states that key uniqueness (automatic for a Go
map, a side condition for an association list).
-/

namespace Natss

/-- Error values; Go compares `err.Error()` strings, so errors are strings. -/
abbrev Err := String

/-- The value `stan.ErrConnectionClosed` (compared by its message string in the source). -/
def errConnectionClosed : Err := "stan: connection closed"

/-- Source `eventingchannels.ChannelReference` (fields `Name`, `Namespace`). -/
structure ChannelReference where
  name : String
  ns : String
deriving DecidableEq, Repr

/-- Source `types.UID`. -/
abbrev UID := String

/-- Source `eventingduckv1.SubscriberSpec`: the fields the dispatcher reads. -/
structure SubscriberSpec where
  uid : UID
  subscriberURI : String
  replyURI : String
  deadLetterURI : String
deriving DecidableEq, Repr

/-- Modelled from the spec: `subscriptionReference` is not under `src/`
(only its use sites are); per the spec it is derived from a
`SubscriberSpec` as `(uid, subscriberURI, replyURI, deadLetterRef)`,
structurally identical to the spec (the source converts back with a
plain type cast). -/
structure subscriptionReference where
  uid : UID
  subscriberURI : String
  replyURI : String
  deadLetterURI : String
deriving DecidableEq, Repr

/-- Modelled from the spec: `newSubscriptionReference` (not under `src/`)
derives the reference from the spec, preserving the `uid`. -/
def newSubscriptionReference (spec : SubscriberSpec) : subscriptionReference :=
  ⟨spec.uid, spec.subscriberURI, spec.replyURI, spec.deadLetterURI⟩

/-- The type cast `eventingduckv1.SubscriberSpec(sub)` used when recording
a failed subscriber. -/
def subscriptionReference.toSpec (r : subscriptionReference) : SubscriberSpec :=
  ⟨r.uid, r.subscriberURI, r.replyURI, r.deadLetterURI⟩

/-- Modelled from the spec: the stable string form of a
`subscriptionReference`, used verbatim as the backend durable name. -/
def subscriptionReference.str (r : subscriptionReference) : String :=
  r.uid ++ "-" ++ r.subscriberURI ++ "-" ++ r.replyURI

/-! ## Go maps as association lists -/

/-- Go map lookup `m[k]` (with `ok`): first matching key. -/
def mapLookup [DecidableEq κ] : List (κ × α) → κ → Option α
  | [], _ => none
  | (k', v) :: rest, k => if k' = k then some v else mapLookup rest k

/-- Go map assignment `m[k] = v`: replace in place, else append. -/
def mapInsert [DecidableEq κ] : List (κ × α) → κ → α → List (κ × α)
  | [], k, v => [(k, v)]
  | (k', v') :: rest, k, v =>
    if k' = k then (k, v) :: rest else (k', v') :: mapInsert rest k v

/-- Go `delete(m, k)`: remove the binding of `k`. -/
def mapErase [DecidableEq κ] : List (κ × α) → κ → List (κ × α)
  | [], _ => []
  | (k', v') :: rest, k => if k' = k then rest else (k', v') :: mapErase rest k

/-! ## The subscription registry -/

/-- Source `SubscriptionChannelMapping`: channel → (uid → subscription handle).
Handles (`*stan.Subscription`) are identifiers drawn from `Nat`. -/
abbrev Registry := List (ChannelReference × List (UID × Nat))

/-- Lookup `s.subscriptions[channel][subscription]` (nil-map indexing included). -/
def lookup2 (st : Registry) (c : ChannelReference) (u : UID) : Option Nat :=
  match mapLookup st c with
  | none => none
  | some m => mapLookup m u

/-- Assignment `chMap[subRef.UID] = natssSub` where `chMap` aliases `s.subscriptions[cRef]`. -/
def insert2 (st : Registry) (c : ChannelReference) (u : UID) (h : Nat) : Registry :=
  match mapLookup st c with
  | none => mapInsert st c [(u, h)]
  | some m => mapInsert st c (mapInsert m u h)

/-- Deletion `delete(s.subscriptions[channel], subscription)`. -/
def erase2 (st : Registry) (c : ChannelReference) (u : UID) : Registry :=
  match mapLookup st c with
  | none => st
  | some m => mapInsert st c (mapErase m u)

/-- Association-list keys are unique, as they are for a Go map. -/
def RegistryWF (st : Registry) : Prop :=
  (st.map (·.1)).Nodup ∧ ∀ p ∈ st, (p.2.map (·.1)).Nodup

instance (st : Registry) : Decidable (RegistryWF st) := by
  unfold RegistryWF; infer_instance

deriving instance DecidableEq for Except

/-! ## Backend events and environment -/

/-- Observable backend operations (plus the reconnect signal). -/
inductive Ev where
  | subscribeOp (subject : String) (durable : String) (result : Except Err Nat)
  | unsubscribeOp (channel : ChannelReference) (uid : UID) (handle : Nat)
      (result : Option Err)
  | publishOp (subject : String) (result : Option Err)
  | reconnectSignal
deriving DecidableEq, Repr

/-- Outcomes the backend produces for each call the dispatcher makes. -/
structure BackendEnv where
  connAvailable : Bool
  subscribeOutcome : ChannelReference → subscriptionReference → Except Err Nat
  unsubscribeOutcome : ChannelReference → UID → Nat → Option Err

def isSubscribeOp : Ev → Bool
  | .subscribeOp _ _ _ => true
  | _ => false

def isUnsubscribeOp : Ev → Bool
  | .unsubscribeOp _ _ _ _ => true
  | _ => false

def countSubscribeOps (tr : List Ev) : Nat := (tr.filter isSubscribeOp).length

def countUnsubscribeOps (tr : List Ev) : Nat := (tr.filter isUnsubscribeOp).length

/-- How many times `Unsubscribe` was attempted on the handle `h` held at
`(c, u)`. -/
def countUnsubFor (tr : List Ev) (c : ChannelReference) (u : UID) (h : Nat) : Nat :=
  tr.countP fun e =>
    match e with
    | .unsubscribeOp c' u' h' _ => decide (c' = c ∧ u' = u ∧ h' = h)
    | _ => false

/-- Holds (`true`) iff the trace holds no unsubscribe operation that returned an
error. -/
def noFailedUnsub (tr : List Ev) : Bool :=
  tr.all fun e =>
    match e with
    | .unsubscribeOp _ _ _ (some _) => false
    | _ => true

/-! ## `getSubject` -/

/-- Source `getSubject`: `channel.Name + "." + channel.Namespace`. -/
def getSubject (channel : ChannelReference) : String :=
  channel.name ++ "." ++ channel.ns

/-! ## `subscribe` / `unsubscribe` -/

structure SubscribeOut where
  result : Except Err Nat
  trace : List Ev
deriving DecidableEq, Repr

/-- Source `subscribe` (dispatcher.go:284-364), backend call only: requires a
connection snapshot; invokes `Subscribe(subject, mcb, DurableName(sub), …)`;
on `ErrConnectionClosed` signals reconnect and returns the error; on
other errors returns them; on success returns the handle. -/
def subscribe (env : BackendEnv) (channel : ChannelReference)
    (subscription : subscriptionReference) : SubscribeOut :=
  if env.connAvailable = false then
    ⟨.error "no Connection to NATSS", []⟩
  else
    match env.subscribeOutcome channel subscription with
    | .error e =>
      if e = errConnectionClosed then
        ⟨.error e, [.subscribeOp (getSubject channel) subscription.str (.error e),
                    .reconnectSignal]⟩
      else
        ⟨.error e, [.subscribeOp (getSubject channel) subscription.str (.error e)]⟩
    | .ok h => ⟨.ok h, [.subscribeOp (getSubject channel) subscription.str (.ok h)]⟩

structure UnsubOut where
  st : Registry
  err : Option Err
  trace : List Ev
deriving DecidableEq, Repr

/-- Source `unsubscribe` (dispatcher.go:367-378): if a handle exists, call the
backend `Unsubscribe`; on error return it (the registry entry is NOT
removed — the `delete` is only reached on success); on success delete
the entry and return nil. -/
def unsubscribe (env : BackendEnv) (st : Registry) (channel : ChannelReference)
    (subscription : UID) : UnsubOut :=
  match lookup2 st channel subscription with
  | some stanSub =>
    match env.unsubscribeOutcome channel subscription stanSub with
    | some err =>
      ⟨st, some err, [.unsubscribeOp channel subscription stanSub (some err)]⟩
    | none =>
      ⟨erase2 st channel subscription, none,
        [.unsubscribeOp channel subscription stanSub none]⟩
  | none => ⟨st, none, []⟩

/-! ## `UpdateSubscriptions` -/

structure SubLoopOut where
  st : Registry
  active : List UID
  failed : List (SubscriberSpec × Err)
  trace : List Ev
deriving DecidableEq, Repr

/-- The `for _, sub := range subscribers` loop of `UpdateSubscriptions`
(dispatcher.go:251-270): mark already-present uids active; otherwise
subscribe, recording failures per subscriber. -/
def subscribeLoop (env : BackendEnv) (cRef : ChannelReference) :
    List SubscriberSpec → Registry → List UID → List (SubscriberSpec × Err) →
    List Ev → SubLoopOut
  | [], st, active, failed, tr => ⟨st, active, failed, tr⟩
  | sub :: rest, st, active, failed, tr =>
    let subRef := newSubscriptionReference sub
    match lookup2 st cRef subRef.uid with
    | some _ => subscribeLoop env cRef rest st (subRef.uid :: active) failed tr
    | none =>
      let r := subscribe env cRef subRef
      match r.result with
      | .error e =>
        subscribeLoop env cRef rest st active
          (mapInsert failed (newSubscriptionReference sub).toSpec e) (tr ++ r.trace)
      | .ok h =>
        subscribeLoop env cRef rest (insert2 st cRef subRef.uid h)
          (subRef.uid :: active) failed (tr ++ r.trace)

structure UnsubLoopOut where
  st : Registry
  trace : List Ev
deriving DecidableEq, Repr

/-- The `for sub := range chMap` stale-removal loop
(dispatcher.go:272-276): unsubscribe every uid not marked active. -/
def unsubscribeLoop (env : BackendEnv) (cRef : ChannelReference) :
    List UID → List UID → Registry → List Ev → UnsubLoopOut
  | [], _, st, tr => ⟨st, tr⟩
  | u :: rest, active, st, tr =>
    if u ∈ active then unsubscribeLoop env cRef rest active st tr
    else
      let r := unsubscribe env st cRef u
      unsubscribeLoop env cRef rest active r.st (tr ++ r.trace)

/-- The `for sub := range chMap` teardown loop (dispatcher.go:236-238):
unsubscribe every uid of the channel. -/
def teardownLoop (env : BackendEnv) (cRef : ChannelReference) :
    List UID → Registry → List Ev → UnsubLoopOut
  | [], st, tr => ⟨st, tr⟩
  | u :: rest, st, tr =>
    let r := unsubscribe env st cRef u
    teardownLoop env cRef rest r.st (tr ++ r.trace)

structure UpdateOut where
  st : Registry
  failed : List (SubscriberSpec × Err)
  fatal : Option Err
  trace : List Ev
deriving DecidableEq, Repr

/-- Source `chMap, ok := s.subscriptions[cRef]; if !ok { chMap = make(…);
s.subscriptions[cRef] = chMap }` (dispatcher.go:245-249). -/
def ensureChannel (st : Registry) (cRef : ChannelReference) : Registry :=
  match mapLookup st cRef with
  | none => mapInsert st cRef []
  | some _ => st

/-- The `if len(s.subscriptions[cRef]) == 0 { delete(s.subscriptions, cRef) }`
epilogue (dispatcher.go:277-280) together with the return. -/
def finishDelete (cRef : ChannelReference) (failed : List (SubscriberSpec × Err))
    (r2 : UnsubLoopOut) : UpdateOut :=
  if ((mapLookup r2.st cRef).getD []).length = 0 then
    ⟨mapErase r2.st cRef, failed, none, r2.trace⟩
  else ⟨r2.st, failed, none, r2.trace⟩

/-- Stale removal over the keys of the channel's inner map after the
subscribe loop, then the epilogue (dispatcher.go:271-281). -/
def steadyStale (env : BackendEnv) (cRef : ChannelReference) (r1 : SubLoopOut) :
    UpdateOut :=
  finishDelete cRef r1.failed
    (unsubscribeLoop env cRef (((mapLookup r1.st cRef).getD []).map (·.1))
      r1.active r1.st r1.trace)

/-- Steady-state path of `UpdateSubscriptions` (dispatcher.go:243-281). -/
def updateSteady (env : BackendEnv) (cRef : ChannelReference)
    (subscribers : List SubscriberSpec) (st : Registry) : UpdateOut :=
  steadyStale env cRef (subscribeLoop env cRef subscribers (ensureChannel st cRef) [] [] [])

/-- Teardown path of `UpdateSubscriptions` (dispatcher.go:227-241):
unknown channel is a no-op; otherwise unsubscribe every uid and delete
the channel key. -/
def updateTeardown (env : BackendEnv) (cRef : ChannelReference) (st : Registry) :
    UpdateOut :=
  match mapLookup st cRef with
  | none => ⟨st, [], none, []⟩
  | some chMap =>
    ⟨mapErase (teardownLoop env cRef (chMap.map (·.1)) st []).st cRef, [], none,
      (teardownLoop env cRef (chMap.map (·.1)) st []).trace⟩

/-- Source `UpdateSubscriptions` (dispatcher.go:220-282). -/
def UpdateSubscriptions (env : BackendEnv) (st : Registry) (name ns : String)
    (subscribers : List SubscriberSpec) (isFinalizer : Bool) : UpdateOut :=
  if subscribers.isEmpty || isFinalizer then updateTeardown env ⟨name, ns⟩ st
  else updateSteady env ⟨name, ns⟩ subscribers st

/-! ## Host-to-channel router -/

/-- A `messagingv1.Channel` as the router reads it: `Name`, `Namespace`
and `Status.Address.URL.Host`. -/
structure Channel where
  name : String
  ns : String
  host : String
deriving DecidableEq, Repr

abbrev HostMap := List (String × ChannelReference)

/-- The duplicate-hostname diagnostic of `newHostNameToChannelRefMap`,
carrying the host, the scanned channel and the previously recorded one
(in the order the `fmt.Errorf` prints them). -/
inductive HostMapErr where
  | duplicateHost (host : String) (newNs newName oldNs oldName : String)
deriving DecidableEq, Repr

/-- The `for _, c := range cList` accumulation inside
`newHostNameToChannelRefMap` (dispatcher.go:395-407). -/
def hostMapBuild : List Channel → HostMap → Except HostMapErr HostMap
  | [], acc => .ok acc
  | c :: rest, acc =>
    match mapLookup acc c.host with
    | some cr => .error (.duplicateHost c.host c.ns c.name cr.ns cr.name)
    | none => hostMapBuild rest (mapInsert acc c.host ⟨c.name, c.ns⟩)

/-- Source `newHostNameToChannelRefMap` (dispatcher.go:393-409). -/
def newHostNameToChannelRefMap (cList : List Channel) : Except HostMapErr HostMap :=
  hostMapBuild cList []

structure ProcessOut where
  hostToChannelMap : HostMap
  err : Option HostMapErr
deriving DecidableEq, Repr

/-- Source `ProcessChannels` (dispatcher.go:414-424): build a fresh map; on
error return it, leaving the installed map; on success install the new
map. -/
def ProcessChannels (current : HostMap) (chanList : List Channel) : ProcessOut :=
  match newHostNameToChannelRefMap chanList with
  | .error e => ⟨current, some e⟩
  | .ok m => ⟨m, none⟩

/-- Source `getChannelReferenceFromHost` (dispatcher.go:426-433). -/
def getChannelReferenceFromHost (m : HostMap) (host : String) :
    Except Err ChannelReference :=
  match mapLookup m host with
  | some cr => .ok cr
  | none =>
    .error ("Invalid HostName:" ++ host ++
      ". HostName not found in any of the watched natss channels")

/-! ## HTTP receive path (`messageReceiverFunc`) -/

structure PublishEnv where
  connAvailable : Bool
  senderCreateErr : Option Err
  sendErr : Option Err

inductive RecvErr where
  | plain (msg : String)
  | wrapped (msg : String) (cause : Err)
deriving DecidableEq, Repr

structure RecvOut where
  result : Option RecvErr
  trace : List Ev
deriving DecidableEq, Repr

/-- Source `messageReceiverFunc` (dispatcher.go:134-162): nil connection fails;
sender construction failure is wrapped; a send error equal to
`ErrConnectionClosed` triggers `signalReconnect` and is wrapped and
returned; other send errors are wrapped and returned. -/
def messageReceiverFunc (env : PublishEnv) (channel : ChannelReference) : RecvOut :=
  if env.connAvailable = false then
    ⟨some (.plain "no Connection to NATSS"), []⟩
  else
    match env.senderCreateErr with
    | some e => ⟨some (.wrapped "could not create natss sender" e), []⟩
    | none =>
      match env.sendErr with
      | some e =>
        if e = errConnectionClosed then
          ⟨some (.wrapped
              "error during send - connection to NATSS has been lost, attempting to reconnect" e),
            [.publishOp (getSubject channel) (some e), .reconnectSignal]⟩
        else
          ⟨some (.wrapped "error during send" e),
            [.publishOp (getSubject channel) (some e)]⟩
      | none => ⟨none, [.publishOp (getSubject channel) none]⟩

/-! ## Delivery callback (`mcb` inside `subscribe`) -/

/-- Outcome of one step of the callback: normal return of a value, an
error return, or a panic. -/
inductive Step (α : Type) where
  | ok (a : α)
  | err (e : Err)
  | panics
deriving DecidableEq, Repr

def Step.isOk : Step α → Bool
  | .ok _ => true
  | _ => false

/-- Outcomes of the effectful steps of one delivery of a backend
message to `mcb`. -/
structure McbEnv where
  newMessage : Step Unit
  dispatch : Step Unit
  ackErr : Option Err
deriving DecidableEq, Repr

structure McbOut where
  acks : Nat
  panicTrapped : Bool
  ackErrorLogged : Bool
  raised : Bool
deriving DecidableEq, Repr

/-- The message callback `mcb` (dispatcher.go:287-336). `raised` is
whatever escapes the callback: always `false`, because the deferred
`recover` (lines 288-296) only logs. Construction failure returns
before dispatch; dispatch failure returns before `Ack`; `Ack` errors
are logged only. -/
def mcb (env : McbEnv) : McbOut :=
  match env.newMessage with
  | .panics => ⟨0, true, false, false⟩
  | .err _ => ⟨0, false, false, false⟩
  | .ok _ =>
    match env.dispatch with
    | .panics => ⟨0, true, false, false⟩
    | .err _ => ⟨0, false, false, false⟩
    | .ok _ => ⟨1, false, env.ackErr.isSome, false⟩

/-! ## Statement apparatus -/

/-- Event check used to state the subject-naming claim: every backend
subscribe and publish event uses the subject `name + "." + namespace`. -/
def subjOk (c : ChannelReference) : Ev → Bool
  | .subscribeOp s _ _ => s == c.name ++ "." ++ c.ns
  | .publishOp s _ => s == c.name ++ "." ++ c.ns
  | _ => true

/-- Error check used to state the duplicate-host claim: the diagnostic
names a host and two channels of the input list that declare it. -/
def errorNamesDuplicate (cList : List Channel) : Option HostMapErr → Bool
  | some (.duplicateHost h ns1 n1 ns2 n2) =>
    (cList.any fun c => decide (c.host = h ∧ c.ns = ns1 ∧ c.name = n1)) &&
    (cList.any fun c => decide (c.host = h ∧ c.ns = ns2 ∧ c.name = n2))
  | none => false

/-- One reconcile call: its arguments and the backend outcomes it will
observe. -/
structure UpdateCall where
  env : BackendEnv
  name : String
  ns : String
  subscribers : List SubscriberSpec
  isFinalizer : Bool

/-- A sequence of `UpdateSubscriptions` calls starting from the empty
registry. -/
def runCalls (calls : List UpdateCall) : Registry :=
  calls.foldl
    (fun st c =>
      (UpdateSubscriptions c.env st c.name c.ns c.subscribers c.isFinalizer).st) []

/-- Every channel key present in the registry has a non-empty inner map. -/
def innerNonEmpty (st : Registry) : Bool :=
  st.all fun p => !p.2.isEmpty

/-! ## Lemmas about the embedded Go maps -/

theorem mapLookup_insert_self [DecidableEq κ] (m : List (κ × α)) (k : κ) (v : α) :
    mapLookup (mapInsert m k v) k = some v := by
  induction m with
  | nil => simp [mapInsert, mapLookup]
  | cons p rest ih =>
    obtain ⟨k', v'⟩ := p
    by_cases h : k' = k <;> simp [mapInsert, mapLookup, h, ih]

theorem mapLookup_insert_ne [DecidableEq κ] (m : List (κ × α)) (k k' : κ) (v : α)
    (h : k' ≠ k) : mapLookup (mapInsert m k v) k' = mapLookup m k' := by
  have h' : k ≠ k' := Ne.symm h
  induction m with
  | nil => simp [mapInsert, mapLookup, h']
  | cons p rest ih =>
    obtain ⟨k'', v'⟩ := p
    by_cases hk : k'' = k
    · subst hk
      simp [mapInsert, mapLookup, h']
    · simp [mapInsert, mapLookup, hk, ih]

theorem mapLookup_erase_ne [DecidableEq κ] (m : List (κ × α)) (k k' : κ)
    (h : k' ≠ k) : mapLookup (mapErase m k) k' = mapLookup m k' := by
  have h' : k ≠ k' := Ne.symm h
  induction m with
  | nil => simp [mapErase]
  | cons p rest ih =>
    obtain ⟨k'', v'⟩ := p
    by_cases hk : k'' = k
    · subst hk
      simp [mapErase, mapLookup, h']
    · simp [mapErase, mapLookup, hk, ih]

theorem mem_keys_of_mapLookup_some [DecidableEq κ] {m : List (κ × α)} {k : κ}
    {v : α} (h : mapLookup m k = some v) : k ∈ m.map (·.1) := by
  induction m with
  | nil => simp [mapLookup] at h
  | cons p rest ih =>
    obtain ⟨k', v'⟩ := p
    by_cases hk : k' = k
    · simp [hk]
    · simp [mapLookup, hk] at h
      simpa using Or.inr (ih h)

theorem mapLookup_eq_none_of_not_mem_keys [DecidableEq κ] {m : List (κ × α)}
    {k : κ} (h : k ∉ m.map (·.1)) : mapLookup m k = none := by
  cases hl : mapLookup m k with
  | none => rfl
  | some v => exact absurd (mem_keys_of_mapLookup_some hl) h

theorem mem_of_mapLookup_some [DecidableEq κ] {m : List (κ × α)} {k : κ} {v : α}
    (h : mapLookup m k = some v) : (k, v) ∈ m := by
  induction m with
  | nil => simp [mapLookup] at h
  | cons p rest ih =>
    obtain ⟨k', v'⟩ := p
    by_cases hk : k' = k
    · subst hk
      simp [mapLookup] at h
      simp [h]
    · simp [mapLookup, hk] at h
      exact List.mem_cons_of_mem _ (ih h)

theorem mapLookup_isSome_of_mem_keys [DecidableEq κ] {m : List (κ × α)} {k : κ}
    (h : k ∈ m.map (·.1)) : (mapLookup m k).isSome := by
  induction m with
  | nil => simp at h
  | cons p rest ih =>
    obtain ⟨k', v'⟩ := p
    by_cases hk : k' = k
    · simp [mapLookup, hk]
    · rw [List.map_cons] at h
      rcases List.mem_cons.mp h with h' | h'
      · exact absurd h'.symm hk
      · simp only [mapLookup]
        rw [if_neg hk]
        exact ih h'

theorem mapLookup_of_mem_nodup [DecidableEq κ] {m : List (κ × α)} {k : κ} {v : α}
    (hnd : (m.map (·.1)).Nodup) (h : (k, v) ∈ m) : mapLookup m k = some v := by
  induction m with
  | nil => simp at h
  | cons p rest ih =>
    obtain ⟨k', v'⟩ := p
    rw [List.map_cons] at hnd
    have hnd' := List.nodup_cons.mp hnd
    rcases List.mem_cons.mp h with heq | hmem
    · cases heq
      simp [mapLookup]
    · have hk : k' ≠ k := by
        intro he
        subst he
        exact hnd'.1 (List.mem_map_of_mem (·.1) hmem)
      simp only [mapLookup]
      rw [if_neg hk]
      exact ih hnd'.2 hmem

theorem mem_mapInsert [DecidableEq κ] {m : List (κ × α)} {k : κ} {v : α}
    {p : κ × α} (h : p ∈ mapInsert m k v) : p ∈ m ∨ p = (k, v) := by
  induction m with
  | nil => simp [mapInsert] at h; simp [h]
  | cons q rest ih =>
    obtain ⟨k', v'⟩ := q
    by_cases hk : k' = k
    · subst hk
      simp [mapInsert] at h
      rcases h with h | h
      · exact Or.inr h
      · exact Or.inl (List.mem_cons_of_mem _ h)
    · simp [mapInsert, hk] at h
      rcases h with h | h
      · exact Or.inl (by simp [h])
      · rcases ih h with h' | h'
        · exact Or.inl (List.mem_cons_of_mem _ h')
        · exact Or.inr h'

theorem mem_mapErase [DecidableEq κ] {m : List (κ × α)} {k : κ} {p : κ × α}
    (h : p ∈ mapErase m k) : p ∈ m := by
  induction m with
  | nil => simp [mapErase] at h
  | cons q rest ih =>
    obtain ⟨k', v'⟩ := q
    by_cases hk : k' = k
    · subst hk
      simp [mapErase] at h
      exact List.mem_cons_of_mem _ h
    · simp [mapErase, hk] at h
      rcases h with h | h
      · simp [h]
      · exact List.mem_cons_of_mem _ (ih h)

theorem keys_mapInsert_mem [DecidableEq κ] {m : List (κ × α)} {k : κ} (v : α)
    (h : k ∈ m.map (·.1)) : (mapInsert m k v).map (·.1) = m.map (·.1) := by
  induction m with
  | nil => simp at h
  | cons q rest ih =>
    obtain ⟨k', v'⟩ := q
    by_cases hk : k' = k
    · subst hk
      simp [mapInsert]
    · rw [List.map_cons] at h
      rcases List.mem_cons.mp h with h' | h'
      · exact absurd h'.symm hk
      · simp only [mapInsert, List.map_cons]
        rw [if_neg hk, List.map_cons, ih h']

theorem keys_mapInsert_not_mem [DecidableEq κ] {m : List (κ × α)} {k : κ} (v : α)
    (h : k ∉ m.map (·.1)) : (mapInsert m k v).map (·.1) = m.map (·.1) ++ [k] := by
  induction m with
  | nil => simp [mapInsert]
  | cons q rest ih =>
    obtain ⟨k', v'⟩ := q
    rw [List.map_cons] at h
    have h1 : k ≠ k' := fun he => h (by rw [he]; exact List.mem_cons_self _ _)
    have h2 : k ∉ rest.map (·.1) := fun hm => h (List.mem_cons_of_mem _ hm)
    have hk : k' ≠ k := Ne.symm h1
    simp only [mapInsert]
    rw [if_neg hk, List.map_cons, List.map_cons, ih h2, List.cons_append]

theorem nodup_keys_mapInsert [DecidableEq κ] {m : List (κ × α)} {k : κ} (v : α)
    (h : (m.map (·.1)).Nodup) : ((mapInsert m k v).map (·.1)).Nodup := by
  by_cases hm : k ∈ m.map (·.1)
  · rw [keys_mapInsert_mem v hm]; exact h
  · rw [keys_mapInsert_not_mem v hm, List.nodup_append]
    refine ⟨h, List.nodup_singleton k, ?_⟩
    intro a ha hb
    rw [List.mem_singleton] at hb
    subst hb
    exact hm ha

theorem keys_mapErase_sublist [DecidableEq κ] (m : List (κ × α)) (k : κ) :
    ((mapErase m k).map (·.1)).Sublist (m.map (·.1)) := by
  induction m with
  | nil => simp [mapErase]
  | cons q rest ih =>
    obtain ⟨k', v'⟩ := q
    by_cases hk : k' = k
    · subst hk
      simp only [mapErase, if_pos rfl, List.map_cons]
      exact List.sublist_cons_self _ _
    · simp only [mapErase]
      rw [if_neg hk, List.map_cons, List.map_cons]
      exact List.Sublist.cons₂ _ ih

theorem nodup_keys_mapErase [DecidableEq κ] {m : List (κ × α)} (k : κ)
    (h : (m.map (·.1)).Nodup) : ((mapErase m k).map (·.1)).Nodup :=
  (keys_mapErase_sublist m k).nodup h

theorem mapLookup_erase_none [DecidableEq κ] {m : List (κ × α)} {k : κ} (k' : κ)
    (h : mapLookup m k = none) : mapLookup (mapErase m k') k = none := by
  cases hl : mapLookup (mapErase m k') k with
  | none => rfl
  | some v =>
    have hk := mem_keys_of_mapLookup_some hl
    have hk2 : k ∈ m.map (·.1) := (keys_mapErase_sublist m k').subset hk
    have hs := mapLookup_isSome_of_mem_keys hk2
    rw [h] at hs
    simp at hs

theorem mapLookup_erase_self [DecidableEq κ] {m : List (κ × α)} {k : κ}
    (hnd : (m.map (·.1)).Nodup) : mapLookup (mapErase m k) k = none := by
  induction m with
  | nil => simp [mapErase, mapLookup]
  | cons q rest ih =>
    obtain ⟨k', v'⟩ := q
    rw [List.map_cons] at hnd
    have hnd' := List.nodup_cons.mp hnd
    by_cases hk : k' = k
    · subst hk
      simp only [mapErase, if_pos rfl]
      exact mapLookup_eq_none_of_not_mem_keys hnd'.1
    · simp only [mapErase]
      rw [if_neg hk]
      simp only [mapLookup]
      rw [if_neg hk]
      exact ih hnd'.2

theorem mapInsert_ne_nil [DecidableEq κ] (m : List (κ × α)) (k : κ) (v : α) :
    mapInsert m k v ≠ [] := by
  cases m with
  | nil => simp [mapInsert]
  | cons q rest =>
    obtain ⟨k', v'⟩ := q
    by_cases hk : k' = k <;> simp [mapInsert, hk]

theorem length_le_mapInsert [DecidableEq κ] (m : List (κ × α)) (k : κ) (v : α) :
    m.length ≤ (mapInsert m k v).length := by
  induction m with
  | nil => simp [mapInsert]
  | cons q rest ih =>
    obtain ⟨k', v'⟩ := q
    by_cases hk : k' = k <;> simp [mapInsert, hk] <;> omega

/-! ## Lemmas about the registry operations -/

theorem lookup2_insert2_self (st : Registry) (c : ChannelReference) (u : UID)
    (h : Nat) : lookup2 (insert2 st c u h) c u = some h := by
  simp only [insert2]
  cases hm : mapLookup st c with
  | none =>
    simp only [lookup2]
    rw [mapLookup_insert_self]
    simp [mapLookup]
  | some m =>
    simp only [lookup2]
    rw [mapLookup_insert_self]
    exact mapLookup_insert_self m u h

theorem lookup2_insert2_ne (st : Registry) (c c' : ChannelReference) (u u' : UID)
    (h : Nat) (hne : ¬(c' = c ∧ u' = u)) :
    lookup2 (insert2 st c u h) c' u' = lookup2 st c' u' := by
  by_cases hc : c' = c
  · subst hc
    have hu : u' ≠ u := fun he => hne ⟨rfl, he⟩
    simp only [insert2, lookup2]
    cases hm : mapLookup st c' with
    | none =>
      rw [mapLookup_insert_self]
      simp [mapLookup, Ne.symm hu]
    | some m =>
      rw [mapLookup_insert_self]
      exact mapLookup_insert_ne m u u' h hu
  · simp only [insert2, lookup2]
    cases hm : mapLookup st c with
    | none => rw [mapLookup_insert_ne _ _ _ _ hc]
    | some m => rw [mapLookup_insert_ne _ _ _ _ hc]

theorem lookup2_insert2_isSome (st : Registry) (c : ChannelReference) (u : UID)
    (h : Nat) (c' : ChannelReference) (u' : UID)
    (hs : (lookup2 st c' u').isSome) :
    (lookup2 (insert2 st c u h) c' u').isSome := by
  by_cases he : c' = c ∧ u' = u
  · obtain ⟨h1, h2⟩ := he
    subst h1
    subst h2
    rw [lookup2_insert2_self]
    rfl
  · rw [lookup2_insert2_ne st c c' u u' h he]
    exact hs

theorem lookup2_erase2_ne (st : Registry) (c c' : ChannelReference) (u u' : UID)
    (hne : ¬(c' = c ∧ u' = u)) :
    lookup2 (erase2 st c u) c' u' = lookup2 st c' u' := by
  by_cases hc : c' = c
  · subst hc
    have hu : u' ≠ u := fun he => hne ⟨rfl, he⟩
    simp only [erase2, lookup2]
    cases hm : mapLookup st c' with
    | none => simp [hm]
    | some m =>
      rw [mapLookup_insert_self]
      exact mapLookup_erase_ne m u u' hu
  · simp only [erase2, lookup2]
    cases hm : mapLookup st c with
    | none => rfl
    | some m => rw [mapLookup_insert_ne _ _ _ _ hc]

theorem lookup2_erase2_self (st : Registry) (c : ChannelReference) (u : UID)
    (hWF : RegistryWF st) : lookup2 (erase2 st c u) c u = none := by
  simp only [erase2, lookup2]
  cases hm : mapLookup st c with
  | none => simp [hm]
  | some m =>
    rw [mapLookup_insert_self]
    exact mapLookup_erase_self (hWF.2 (c, m) (mem_of_mapLookup_some hm))

theorem lookup2_erase2_none (st : Registry) (c : ChannelReference) (u : UID)
    (c' : ChannelReference) (u' : UID) (hn : lookup2 st c' u' = none) :
    lookup2 (erase2 st c u) c' u' = none := by
  simp only [erase2]
  cases hm : mapLookup st c with
  | none => exact hn
  | some m =>
    by_cases hc : c' = c
    · subst hc
      simp only [lookup2, hm] at hn
      simp only [lookup2]
      rw [mapLookup_insert_self]
      exact mapLookup_erase_none u hn
    · simp only [lookup2] at hn ⊢
      rw [mapLookup_insert_ne _ _ _ _ hc]
      exact hn

theorem lookup2_erase2_some_rev (st : Registry) (c : ChannelReference) (u : UID)
    (c' : ChannelReference) (u' : UID) (h' : Nat) (hWF : RegistryWF st)
    (hs : lookup2 (erase2 st c u) c' u' = some h') :
    lookup2 st c' u' = some h' := by
  by_cases he : c' = c ∧ u' = u
  · obtain ⟨h1, h2⟩ := he
    subst h1
    subst h2
    rw [lookup2_erase2_self st c' u' hWF] at hs
    cases hs
  · rw [lookup2_erase2_ne st c c' u u' he] at hs
    exact hs

theorem registryWF_mapInsert_inner (st : Registry) (c : ChannelReference)
    (inner : List (UID × Nat)) (hWF : RegistryWF st)
    (hinner : (inner.map (·.1)).Nodup) : RegistryWF (mapInsert st c inner) := by
  constructor
  · exact nodup_keys_mapInsert _ hWF.1
  · intro p hp
    rcases mem_mapInsert hp with h | h
    · exact hWF.2 p h
    · subst h
      exact hinner

theorem registryWF_insert2 (st : Registry) (c : ChannelReference) (u : UID)
    (h : Nat) (hWF : RegistryWF st) : RegistryWF (insert2 st c u h) := by
  simp only [insert2]
  cases hm : mapLookup st c with
  | none => exact registryWF_mapInsert_inner st c [(u, h)] hWF (by simp)
  | some m =>
    exact registryWF_mapInsert_inner st c _ hWF
      (nodup_keys_mapInsert _ (hWF.2 (c, m) (mem_of_mapLookup_some hm)))

theorem registryWF_erase2 (st : Registry) (c : ChannelReference) (u : UID)
    (hWF : RegistryWF st) : RegistryWF (erase2 st c u) := by
  simp only [erase2]
  cases hm : mapLookup st c with
  | none => exact hWF
  | some m =>
    exact registryWF_mapInsert_inner st c _ hWF
      (nodup_keys_mapErase _ (hWF.2 (c, m) (mem_of_mapLookup_some hm)))

theorem registryWF_mapErase (st : Registry) (c : ChannelReference)
    (hWF : RegistryWF st) : RegistryWF (mapErase st c) := by
  constructor
  · exact nodup_keys_mapErase _ hWF.1
  · intro p hp
    exact hWF.2 p (mem_mapErase hp)

theorem keys_erase2 (st : Registry) (c : ChannelReference) (u : UID) :
    (erase2 st c u).map (·.1) = st.map (·.1) := by
  simp only [erase2]
  cases hm : mapLookup st c with
  | none => rfl
  | some m => exact keys_mapInsert_mem _ (mem_keys_of_mapLookup_some hm)

theorem keys_insert2_of_isSome (st : Registry) (c : ChannelReference) (u : UID)
    (h : Nat) (hc : (mapLookup st c).isSome) :
    (insert2 st c u h).map (·.1) = st.map (·.1) := by
  simp only [insert2]
  cases hm : mapLookup st c with
  | none => rw [hm] at hc; cases hc
  | some m => exact keys_mapInsert_mem _ (mem_keys_of_mapLookup_some hm)

/-! ## Lemmas about the host-map build -/

theorem hostMapBuild_ok_no_dup : ∀ (rest : List Channel) (acc m : HostMap),
    hostMapBuild rest acc = .ok m →
    (∀ c ∈ rest, mapLookup acc c.host = none) ∧ (rest.map (·.host)).Nodup := by
  intro rest
  induction rest with
  | nil => exact fun acc m _ => ⟨by simp, by simp⟩
  | cons c tail ih =>
    intro acc m hok
    simp only [hostMapBuild] at hok
    cases hl : mapLookup acc c.host with
    | some cr =>
      simp only [hl] at hok
      exact Except.noConfusion hok
    | none =>
      simp only [hl] at hok
      have ihh := ih _ _ hok
      refine ⟨?_, ?_⟩
      · intro c' hc'
        rcases List.mem_cons.mp hc' with h | h
        · subst h; exact hl
        · by_cases hh : c'.host = c.host
          · exfalso
            have hx := ihh.1 c' h
            rw [hh, mapLookup_insert_self] at hx
            cases hx
          · have hx := ihh.1 c' h
            rwa [mapLookup_insert_ne _ _ _ _ hh] at hx
      · rw [List.map_cons]
        refine List.nodup_cons.mpr ⟨?_, ihh.2⟩
        intro hmem
        rcases List.mem_map.mp hmem with ⟨c', hc', hh⟩
        have hx := ihh.1 c' hc'
        rw [← hh, mapLookup_insert_self] at hx
        cases hx

theorem hostMapBuild_provenance : ∀ (rest : List Channel) (acc : HostMap)
    (full : List Channel),
    (∀ k cr, mapLookup acc k = some cr →
      ∃ c, c ∈ full ∧ c.host = k ∧ cr = ⟨c.name, c.ns⟩) →
    (∀ c ∈ rest, c ∈ full) →
    (∀ m, hostMapBuild rest acc = .ok m → ∀ k cr, mapLookup m k = some cr →
      ∃ c, c ∈ full ∧ c.host = k ∧ cr = ⟨c.name, c.ns⟩) ∧
    (∀ err, hostMapBuild rest acc = .error err →
      ∃ c1, c1 ∈ full ∧ ∃ c2, c2 ∈ full ∧ c1.host = c2.host ∧
        err = .duplicateHost c1.host c1.ns c1.name c2.ns c2.name) := by
  intro rest
  induction rest with
  | nil =>
    intro acc full hacc _
    constructor
    · intro m hok
      simp only [hostMapBuild] at hok
      cases hok
      exact hacc
    · intro err herr
      simp only [hostMapBuild] at herr
      exact Except.noConfusion herr
  | cons c tail ih =>
    intro acc full hacc hmem
    have hcfull : c ∈ full := hmem c (List.mem_cons_self _ _)
    constructor
    · intro m hok
      simp only [hostMapBuild] at hok
      cases hl : mapLookup acc c.host with
      | some cr =>
        simp only [hl] at hok
        exact Except.noConfusion hok
      | none =>
        simp only [hl] at hok
        refine (ih (mapInsert acc c.host ⟨c.name, c.ns⟩) full ?_ ?_).1 m hok
        · intro k cr hk
          by_cases hh : k = c.host
          · subst hh
            rw [mapLookup_insert_self] at hk
            cases hk
            exact ⟨c, hcfull, rfl, rfl⟩
          · rw [mapLookup_insert_ne _ _ _ _ hh] at hk
            exact hacc k cr hk
        · exact fun c' hc' => hmem c' (List.mem_cons_of_mem _ hc')
    · intro err herr
      simp only [hostMapBuild] at herr
      cases hl : mapLookup acc c.host with
      | some cr =>
        simp only [hl] at herr
        obtain ⟨c2, hc2, hhost2, hcr⟩ := hacc _ _ hl
        cases herr
        refine ⟨c, hcfull, c2, hc2, hhost2.symm, ?_⟩
        rw [hcr]
      | none =>
        simp only [hl] at herr
        refine (ih (mapInsert acc c.host ⟨c.name, c.ns⟩) full ?_ ?_).2 err herr
        · intro k cr hk
          by_cases hh : k = c.host
          · subst hh
            rw [mapLookup_insert_self] at hk
            cases hk
            exact ⟨c, hcfull, rfl, rfl⟩
          · rw [mapLookup_insert_ne _ _ _ _ hh] at hk
            exact hacc k cr hk
        · exact fun c' hc' => hmem c' (List.mem_cons_of_mem _ hc')

/-! ## Lemmas about `unsubscribe` -/

theorem unsubscribe_st_WF (env : BackendEnv) (st : Registry) (c : ChannelReference)
    (u : UID) (hWF : RegistryWF st) : RegistryWF (unsubscribe env st c u).st := by
  cases hl : lookup2 st c u with
  | none => simpa only [unsubscribe, hl] using hWF
  | some h =>
    cases ho : env.unsubscribeOutcome c u h with
    | some e => simpa only [unsubscribe, hl, ho] using hWF
    | none => simpa only [unsubscribe, hl, ho] using registryWF_erase2 st c u hWF

theorem unsubscribe_st_keys (env : BackendEnv) (st : Registry)
    (c : ChannelReference) (u : UID) :
    (unsubscribe env st c u).st.map (·.1) = st.map (·.1) := by
  cases hl : lookup2 st c u with
  | none => simp only [unsubscribe, hl]
  | some h =>
    cases ho : env.unsubscribeOutcome c u h with
    | some e => simp only [unsubscribe, hl, ho]
    | none => simpa only [unsubscribe, hl, ho] using keys_erase2 st c u

theorem unsubscribe_lookup2_pres (env : BackendEnv) (st : Registry)
    (c : ChannelReference) (u : UID) (c' : ChannelReference) (u' : UID)
    (hne : ¬(c' = c ∧ u' = u)) :
    lookup2 (unsubscribe env st c u).st c' u' = lookup2 st c' u' := by
  cases hl : lookup2 st c u with
  | none => simp only [unsubscribe, hl]
  | some h =>
    cases ho : env.unsubscribeOutcome c u h with
    | some e => simp only [unsubscribe, hl, ho]
    | none => simpa only [unsubscribe, hl, ho] using lookup2_erase2_ne st c c' u u' hne

theorem unsubscribe_other_channel (env : BackendEnv) (st : Registry)
    (c : ChannelReference) (u : UID) (c' : ChannelReference) (hc : c' ≠ c) :
    mapLookup (unsubscribe env st c u).st c' = mapLookup st c' := by
  cases hl : lookup2 st c u with
  | none => simp only [unsubscribe, hl]
  | some h =>
    cases ho : env.unsubscribeOutcome c u h with
    | some e => simp only [unsubscribe, hl, ho]
    | none =>
      simp only [unsubscribe, hl, ho, erase2]
      cases hm : mapLookup st c with
      | none => rfl
      | some m => exact mapLookup_insert_ne st c c' _ hc

theorem unsubscribe_some_rev (env : BackendEnv) (st : Registry)
    (c : ChannelReference) (u : UID) (c' : ChannelReference) (u' : UID) (h' : Nat)
    (hWF : RegistryWF st)
    (hs : lookup2 (unsubscribe env st c u).st c' u' = some h') :
    lookup2 st c' u' = some h' := by
  cases hl : lookup2 st c u with
  | none => simpa only [unsubscribe, hl] using hs
  | some h =>
    cases ho : env.unsubscribeOutcome c u h with
    | some e => simpa only [unsubscribe, hl, ho] using hs
    | none =>
      simp only [unsubscribe, hl, ho] at hs
      exact lookup2_erase2_some_rev st c u c' u' h' hWF hs

theorem unsubscribe_none_pres (env : BackendEnv) (st : Registry)
    (c : ChannelReference) (u : UID) (c' : ChannelReference) (u' : UID)
    (hn : lookup2 st c' u' = none) :
    lookup2 (unsubscribe env st c u).st c' u' = none := by
  cases hl : lookup2 st c u with
  | none => simpa only [unsubscribe, hl] using hn
  | some h =>
    cases ho : env.unsubscribeOutcome c u h with
    | some e => simpa only [unsubscribe, hl, ho] using hn
    | none => simpa only [unsubscribe, hl, ho] using lookup2_erase2_none st c u c' u' hn

/-! ## Counting helpers -/

theorem countUnsubscribeOps_append (t1 t2 : List Ev) :
    countUnsubscribeOps (t1 ++ t2) = countUnsubscribeOps t1 + countUnsubscribeOps t2 := by
  simp [countUnsubscribeOps, List.filter_append]

theorem countSubscribeOps_append (t1 t2 : List Ev) :
    countSubscribeOps (t1 ++ t2) = countSubscribeOps t1 + countSubscribeOps t2 := by
  simp [countSubscribeOps, List.filter_append]

theorem countUnsubFor_append (t1 t2 : List Ev) (c : ChannelReference) (u : UID)
    (h : Nat) :
    countUnsubFor (t1 ++ t2) c u h = countUnsubFor t1 c u h + countUnsubFor t2 c u h := by
  simp [countUnsubFor, List.countP_append]

theorem noFailedUnsub_no_fail (tr : List Ev) (h : noFailedUnsub tr = true)
    (c : ChannelReference) (u : UID) (hh : Nat) (e : Err)
    (hm : Ev.unsubscribeOp c u hh (some e) ∈ tr) : False := by
  rw [noFailedUnsub, List.all_eq_true] at h
  have hx := h _ hm
  simp at hx

theorem lookup2_some_inner (st : Registry) (c : ChannelReference) (u : UID)
    (h : Nat) (hs : lookup2 st c u = some h) :
    ∃ m, mapLookup st c = some m ∧ (u, h) ∈ m := by
  simp only [lookup2] at hs
  cases hm : mapLookup st c with
  | none => rw [hm] at hs; cases hs
  | some m =>
    rw [hm] at hs
    exact ⟨m, rfl, mem_of_mapLookup_some hs⟩

/-! ## The teardown loop -/

theorem teardownLoop_spec (env : BackendEnv) (cRef : ChannelReference) :
    ∀ (keys : List UID) (st : Registry) (tr : List Ev),
    RegistryWF st → keys.Nodup →
    (∀ u ∈ keys, (lookup2 st cRef u).isSome) →
    RegistryWF (teardownLoop env cRef keys st tr).st ∧
    (teardownLoop env cRef keys st tr).trace.length = tr.length + keys.length ∧
    countUnsubscribeOps (teardownLoop env cRef keys st tr).trace =
      countUnsubscribeOps tr + keys.length ∧
    countSubscribeOps (teardownLoop env cRef keys st tr).trace =
      countSubscribeOps tr ∧
    (∀ u h, u ∈ keys → lookup2 st cRef u = some h →
      countUnsubFor (teardownLoop env cRef keys st tr).trace cRef u h =
        countUnsubFor tr cRef u h + 1) ∧
    (∀ u h, u ∉ keys →
      countUnsubFor (teardownLoop env cRef keys st tr).trace cRef u h =
        countUnsubFor tr cRef u h) := by
  intro keys
  induction keys with
  | nil =>
    intro st tr hWF _ _
    refine ⟨hWF, by simp [teardownLoop], by simp [teardownLoop],
      by simp [teardownLoop], ?_, fun u h _ => by simp [teardownLoop]⟩
    intro u h hu
    exact absurd hu (List.not_mem_nil u)
  | cons u rest ih =>
    intro st tr hWF hnd hpres
    have hndr := List.nodup_cons.mp hnd
    obtain ⟨h, hl⟩ : ∃ h, lookup2 st cRef u = some h := by
      have hp := hpres u (List.mem_cons_self _ _)
      cases hx : lookup2 st cRef u
      · rw [hx] at hp; cases hp
      · exact ⟨_, rfl⟩
    cases ho : env.unsubscribeOutcome cRef u h with
    | some e =>
      have hstep : teardownLoop env cRef (u :: rest) st tr =
          teardownLoop env cRef rest st (tr ++ [.unsubscribeOp cRef u h (some e)]) := by
        simp [teardownLoop, unsubscribe, hl, ho]
      have hpres' : ∀ u' ∈ rest, (lookup2 st cRef u').isSome :=
        fun u' hu' => hpres u' (List.mem_cons_of_mem _ hu')
      have ihh := ih st (tr ++ [.unsubscribeOp cRef u h (some e)]) hWF hndr.2 hpres'
      rw [hstep]
      refine ⟨ihh.1, ?_, ?_, ?_, ?_, ?_⟩
      · rw [ihh.2.1]; simp; omega
      · rw [ihh.2.2.1, countUnsubscribeOps_append]
        simp [countUnsubscribeOps, isUnsubscribeOp]
        omega
      · rw [ihh.2.2.2.1, countSubscribeOps_append]
        simp [countSubscribeOps, isSubscribeOp]
      · intro u₀ h₀ hu₀ hl₀
        rcases List.mem_cons.mp hu₀ with heq | hmem
        · subst heq
          rw [hl] at hl₀
          cases hl₀
          rw [ihh.2.2.2.2.2 u₀ h hndr.1, countUnsubFor_append]
          simp [countUnsubFor, List.countP_cons]
        · have hne : u₀ ≠ u := fun he => hndr.1 (he ▸ hmem)
          rw [ihh.2.2.2.2.1 u₀ h₀ hmem hl₀, countUnsubFor_append]
          simp [countUnsubFor, List.countP_cons, hne, Ne.symm hne]
      · intro u' h' hu'
        have hne : u' ≠ u := fun he => hu' (he ▸ List.mem_cons_self _ _)
        have hnr : u' ∉ rest := fun hr => hu' (List.mem_cons_of_mem _ hr)
        rw [ihh.2.2.2.2.2 u' h' hnr, countUnsubFor_append]
        simp [countUnsubFor, List.countP_cons, hne, Ne.symm hne]
    | none =>
      have hstep : teardownLoop env cRef (u :: rest) st tr =
          teardownLoop env cRef rest (erase2 st cRef u)
            (tr ++ [.unsubscribeOp cRef u h none]) := by
        simp [teardownLoop, unsubscribe, hl, ho]
      have hWF' : RegistryWF (erase2 st cRef u) := registryWF_erase2 st cRef u hWF
      have hpresE : ∀ u' ∈ rest, lookup2 (erase2 st cRef u) cRef u' = lookup2 st cRef u' := by
        intro u' hu'
        have hne : u' ≠ u := fun he => hndr.1 (he ▸ hu')
        exact lookup2_erase2_ne st cRef cRef u u' (fun hp => hne hp.2)
      have hpres' : ∀ u' ∈ rest, (lookup2 (erase2 st cRef u) cRef u').isSome := by
        intro u' hu'
        rw [hpresE u' hu']
        exact hpres u' (List.mem_cons_of_mem _ hu')
      have ihh := ih (erase2 st cRef u) (tr ++ [.unsubscribeOp cRef u h none])
        hWF' hndr.2 hpres'
      rw [hstep]
      refine ⟨ihh.1, ?_, ?_, ?_, ?_, ?_⟩
      · rw [ihh.2.1]; simp; omega
      · rw [ihh.2.2.1, countUnsubscribeOps_append]
        simp [countUnsubscribeOps, isUnsubscribeOp]
        omega
      · rw [ihh.2.2.2.1, countSubscribeOps_append]
        simp [countSubscribeOps, isSubscribeOp]
      · intro u₀ h₀ hu₀ hl₀
        rcases List.mem_cons.mp hu₀ with heq | hmem
        · subst heq
          rw [hl] at hl₀
          cases hl₀
          rw [ihh.2.2.2.2.2 u₀ h hndr.1, countUnsubFor_append]
          simp [countUnsubFor, List.countP_cons]
        · have hne : u₀ ≠ u := fun he => hndr.1 (he ▸ hmem)
          rw [ihh.2.2.2.2.1 u₀ h₀ hmem ((hpresE u₀ hmem).trans hl₀ ▸ rfl),
            countUnsubFor_append]
          simp [countUnsubFor, List.countP_cons, hne, Ne.symm hne]
      · intro u' h' hu'
        have hne : u' ≠ u := fun he => hu' (he ▸ List.mem_cons_self _ _)
        have hnr : u' ∉ rest := fun hr => hu' (List.mem_cons_of_mem _ hr)
        rw [ihh.2.2.2.2.2 u' h' hnr, countUnsubFor_append]
        simp [countUnsubFor, List.countP_cons, hne, Ne.symm hne]

/-! ## Preservation lemmas for the reconcile loops -/

theorem insert2_other (st : Registry) (c : ChannelReference) (u : UID) (h : Nat)
    (c' : ChannelReference) (hc : c' ≠ c) :
    mapLookup (insert2 st c u h) c' = mapLookup st c' := by
  simp only [insert2]
  cases hm : mapLookup st c with
  | none => exact mapLookup_insert_ne st c c' _ hc
  | some m => exact mapLookup_insert_ne st c c' _ hc

theorem insert2_present (st : Registry) (c : ChannelReference) (u : UID) (h : Nat) :
    (mapLookup (insert2 st c u h) c).isSome := by
  simp only [insert2]
  cases hm : mapLookup st c with
  | none => rw [mapLookup_insert_self]; rfl
  | some m => rw [mapLookup_insert_self]; rfl

theorem ensureChannel_WF (st : Registry) (cRef : ChannelReference)
    (hWF : RegistryWF st) : RegistryWF (ensureChannel st cRef) := by
  simp only [ensureChannel]
  cases hm : mapLookup st cRef with
  | none => exact registryWF_mapInsert_inner st cRef [] hWF (by simp)
  | some m => exact hWF

theorem ensureChannel_present (st : Registry) (cRef : ChannelReference) :
    (mapLookup (ensureChannel st cRef) cRef).isSome := by
  simp only [ensureChannel]
  cases hm : mapLookup st cRef with
  | none => rw [mapLookup_insert_self]; rfl
  | some m => rw [hm]; rfl

theorem ensureChannel_other (st : Registry) (cRef c' : ChannelReference)
    (hc : c' ≠ cRef) :
    mapLookup (ensureChannel st cRef) c' = mapLookup st c' := by
  simp only [ensureChannel]
  cases hm : mapLookup st cRef with
  | none => exact mapLookup_insert_ne st cRef c' _ hc
  | some m => rfl

theorem ensureChannel_of_isSome (st : Registry) (cRef : ChannelReference)
    (h : (mapLookup st cRef).isSome) : ensureChannel st cRef = st := by
  simp only [ensureChannel]
  cases hm : mapLookup st cRef with
  | none => rw [hm] at h; cases h
  | some m => rfl

theorem subscribeLoop_pres (env : BackendEnv) (cRef : ChannelReference) :
    ∀ (subs : List SubscriberSpec) (st : Registry) (active : List UID)
      (failed : List (SubscriberSpec × Err)) (tr : List Ev),
    RegistryWF st → (mapLookup st cRef).isSome →
    RegistryWF (subscribeLoop env cRef subs st active failed tr).st ∧
    (mapLookup (subscribeLoop env cRef subs st active failed tr).st cRef).isSome ∧
    (∀ c', c' ≠ cRef →
      mapLookup (subscribeLoop env cRef subs st active failed tr).st c' =
        mapLookup st c') := by
  intro subs
  induction subs with
  | nil => exact fun st active failed tr hWF hp => ⟨hWF, hp, fun _ _ => rfl⟩
  | cons sub rest ih =>
    intro st active failed tr hWF hp
    simp only [subscribeLoop]
    cases hl : lookup2 st cRef (newSubscriptionReference sub).uid with
    | some h => exact ih st _ failed tr hWF hp
    | none =>
      cases hr : (subscribe env cRef (newSubscriptionReference sub)).result with
      | error e => exact ih st active _ _ hWF hp
      | ok h =>
        have hWF' := registryWF_insert2 st cRef (newSubscriptionReference sub).uid h hWF
        have hp' := insert2_present st cRef (newSubscriptionReference sub).uid h
        have ihh := ih (insert2 st cRef (newSubscriptionReference sub).uid h)
          ((newSubscriptionReference sub).uid :: active) failed
          (tr ++ (subscribe env cRef (newSubscriptionReference sub)).trace) hWF' hp'
        exact ⟨ihh.1, ihh.2.1, fun c' hc => (ihh.2.2 c' hc).trans
          (insert2_other st cRef (newSubscriptionReference sub).uid h c' hc)⟩

theorem unsubscribeLoop_pres (env : BackendEnv) (cRef : ChannelReference) :
    ∀ (keys active : List UID) (st : Registry) (tr : List Ev),
    RegistryWF st →
    RegistryWF (unsubscribeLoop env cRef keys active st tr).st ∧
    (∀ c', c' ≠ cRef →
      mapLookup (unsubscribeLoop env cRef keys active st tr).st c' =
        mapLookup st c') := by
  intro keys
  induction keys with
  | nil => exact fun active st tr hWF => ⟨hWF, fun _ _ => rfl⟩
  | cons u rest ih =>
    intro active st tr hWF
    simp only [unsubscribeLoop]
    by_cases hu : u ∈ active
    · rw [if_pos hu]
      exact ih active st tr hWF
    · rw [if_neg hu]
      have hWF' := unsubscribe_st_WF env st cRef u hWF
      have ihh := ih active (unsubscribe env st cRef u).st
        (tr ++ (unsubscribe env st cRef u).trace) hWF'
      exact ⟨ihh.1, fun c' hc => (ihh.2 c' hc).trans
        (unsubscribe_other_channel env st cRef u c' hc)⟩

theorem teardownLoop_pres (env : BackendEnv) (cRef : ChannelReference) :
    ∀ (keys : List UID) (st : Registry) (tr : List Ev),
    RegistryWF st →
    RegistryWF (teardownLoop env cRef keys st tr).st ∧
    (∀ c', c' ≠ cRef →
      mapLookup (teardownLoop env cRef keys st tr).st c' = mapLookup st c') := by
  intro keys
  induction keys with
  | nil => exact fun st tr hWF => ⟨hWF, fun _ _ => rfl⟩
  | cons u rest ih =>
    intro st tr hWF
    simp only [teardownLoop]
    have hWF' := unsubscribe_st_WF env st cRef u hWF
    have ihh := ih (unsubscribe env st cRef u).st
      (tr ++ (unsubscribe env st cRef u).trace) hWF'
    exact ⟨ihh.1, fun c' hc => (ihh.2 c' hc).trans
      (unsubscribe_other_channel env st cRef u c' hc)⟩

theorem innerNonEmpty_eq_true (st : Registry) :
    innerNonEmpty st = true ↔ ∀ p ∈ st, p.2 ≠ [] := by
  simp only [innerNonEmpty, List.all_eq_true, Bool.not_eq_true']
  constructor
  · intro h p hp he
    have := h p hp
    rw [he] at this
    simp at this
  · intro h p hp
    have := h p hp
    cases hc : p.2 with
    | nil => exact absurd hc this
    | cons a l => simp [hc]

/-- The registry-shape invariant preserved by every `UpdateSubscriptions`
call: well-formed keys and no empty inner map. -/
theorem updateSubscriptions_inv (env : BackendEnv) (st : Registry)
    (name ns : String) (subscribers : List SubscriberSpec) (isFinalizer : Bool)
    (hWF : RegistryWF st) (hNE : innerNonEmpty st = true) :
    RegistryWF (UpdateSubscriptions env st name ns subscribers isFinalizer).st ∧
    innerNonEmpty (UpdateSubscriptions env st name ns subscribers isFinalizer).st
      = true := by
  by_cases hbool : (subscribers.isEmpty || isFinalizer) = true
  · have hupd : UpdateSubscriptions env st name ns subscribers isFinalizer =
        updateTeardown env ⟨name, ns⟩ st := by simp [UpdateSubscriptions, hbool]
    rw [hupd]
    simp only [updateTeardown]
    cases hm : mapLookup st ⟨name, ns⟩ with
    | none => exact ⟨hWF, hNE⟩
    | some chMap =>
      have tp := teardownLoop_pres env ⟨name, ns⟩ (chMap.map (·.1)) st [] hWF
      have hWFe := registryWF_mapErase _ ⟨name, ns⟩ tp.1
      refine ⟨hWFe, ?_⟩
      rw [innerNonEmpty_eq_true]
      intro p hp
      have hlp : mapLookup (mapErase
          (teardownLoop env ⟨name, ns⟩ (chMap.map (·.1)) st []).st ⟨name, ns⟩) p.1 =
          some p.2 := mapLookup_of_mem_nodup hWFe.1 hp
      by_cases hcc : p.1 = ⟨name, ns⟩
      · rw [hcc, mapLookup_erase_self tp.1.1] at hlp
        cases hlp
      · rw [mapLookup_erase_ne _ _ _ hcc, tp.2 p.1 hcc] at hlp
        exact (innerNonEmpty_eq_true st).mp hNE p (mem_of_mapLookup_some hlp)
  · have hupd : UpdateSubscriptions env st name ns subscribers isFinalizer =
        updateSteady env ⟨name, ns⟩ subscribers st := by
      simp [UpdateSubscriptions, hbool]
    rw [hupd]
    simp only [updateSteady, steadyStale, finishDelete]
    have hWF0 := ensureChannel_WF st ⟨name, ns⟩ hWF
    have hp0 := ensureChannel_present st ⟨name, ns⟩
    have sp := subscribeLoop_pres env ⟨name, ns⟩ subscribers
      (ensureChannel st ⟨name, ns⟩) [] [] [] hWF0 hp0
    have up := unsubscribeLoop_pres env ⟨name, ns⟩
      (((mapLookup (subscribeLoop env ⟨name, ns⟩ subscribers
        (ensureChannel st ⟨name, ns⟩) [] [] []).st ⟨name, ns⟩).getD []).map (·.1))
      (subscribeLoop env ⟨name, ns⟩ subscribers
        (ensureChannel st ⟨name, ns⟩) [] [] []).active
      (subscribeLoop env ⟨name, ns⟩ subscribers
        (ensureChannel st ⟨name, ns⟩) [] [] []).st
      (subscribeLoop env ⟨name, ns⟩ subscribers
        (ensureChannel st ⟨name, ns⟩) [] [] []).trace sp.1
    have hother : ∀ c', c' ≠ (⟨name, ns⟩ : ChannelReference) →
        mapLookup (unsubscribeLoop env ⟨name, ns⟩
          (((mapLookup (subscribeLoop env ⟨name, ns⟩ subscribers
            (ensureChannel st ⟨name, ns⟩) [] [] []).st ⟨name, ns⟩).getD []).map (·.1))
          (subscribeLoop env ⟨name, ns⟩ subscribers
            (ensureChannel st ⟨name, ns⟩) [] [] []).active
          (subscribeLoop env ⟨name, ns⟩ subscribers
            (ensureChannel st ⟨name, ns⟩) [] [] []).st
          (subscribeLoop env ⟨name, ns⟩ subscribers
            (ensureChannel st ⟨name, ns⟩) [] [] []).trace).st c' =
        mapLookup st c' := by
      intro c' hc
      rw [up.2 c' hc, sp.2.2 c' hc, ensureChannel_other st ⟨name, ns⟩ c' hc]
    split
    · -- inner map empty: channel key deleted
      have hWFe := registryWF_mapErase _ (⟨name, ns⟩ : ChannelReference) up.1
      refine ⟨hWFe, ?_⟩
      rw [innerNonEmpty_eq_true]
      intro p hp
      have hlp := mapLookup_of_mem_nodup hWFe.1 hp
      by_cases hcc : p.1 = (⟨name, ns⟩ : ChannelReference)
      · rw [hcc, mapLookup_erase_self up.1.1] at hlp
        cases hlp
      · rw [mapLookup_erase_ne _ _ _ hcc, hother p.1 hcc] at hlp
        exact (innerNonEmpty_eq_true st).mp hNE p (mem_of_mapLookup_some hlp)
    · -- inner map non-empty: key retained
      next hlen =>
      refine ⟨up.1, ?_⟩
      rw [innerNonEmpty_eq_true]
      intro p hp
      have hlp := mapLookup_of_mem_nodup up.1.1 hp
      by_cases hcc : p.1 = (⟨name, ns⟩ : ChannelReference)
      · intro he
        rw [hcc] at hlp
        rw [hlp] at hlen
        rw [he] at hlen
        simp at hlen
      · rw [hother p.1 hcc] at hlp
        exact (innerNonEmpty_eq_true st).mp hNE p (mem_of_mapLookup_some hlp)

/-! ## Loop lemmas for the idempotence claim -/

theorem finishDelete_failed (cRef : ChannelReference)
    (failed : List (SubscriberSpec × Err)) (r2 : UnsubLoopOut) :
    (finishDelete cRef failed r2).failed = failed := by
  simp only [finishDelete]
  split <;> rfl

theorem finishDelete_trace (cRef : ChannelReference)
    (failed : List (SubscriberSpec × Err)) (r2 : UnsubLoopOut) :
    (finishDelete cRef failed r2).trace = r2.trace := by
  simp only [finishDelete]
  split <;> rfl

theorem finishDelete_st_of_nonempty (cRef : ChannelReference)
    (failed : List (SubscriberSpec × Err)) (r2 : UnsubLoopOut)
    (h : ¬(((mapLookup r2.st cRef).getD []).length = 0)) :
    (finishDelete cRef failed r2).st = r2.st := by
  simp only [finishDelete]
  rw [if_neg h]

theorem updateSteady_eq (env : BackendEnv) (cRef : ChannelReference)
    (subscribers : List SubscriberSpec) (st : Registry) :
    updateSteady env cRef subscribers st = finishDelete cRef
      (subscribeLoop env cRef subscribers (ensureChannel st cRef) [] [] []).failed
      (unsubscribeLoop env cRef
        (((mapLookup (subscribeLoop env cRef subscribers
          (ensureChannel st cRef) [] [] []).st cRef).getD []).map (·.1))
        (subscribeLoop env cRef subscribers (ensureChannel st cRef) [] [] []).active
        (subscribeLoop env cRef subscribers (ensureChannel st cRef) [] [] []).st
        (subscribeLoop env cRef subscribers (ensureChannel st cRef) [] [] []).trace) :=
  rfl

theorem subscribeLoop_main (env : BackendEnv) (cRef : ChannelReference) :
    ∀ (subs : List SubscriberSpec) (st : Registry) (active : List UID)
      (failed : List (SubscriberSpec × Err)) (tr : List Ev),
    (∀ c u, (lookup2 st c u).isSome →
      (lookup2 (subscribeLoop env cRef subs st active failed tr).st c u).isSome) ∧
    (∀ a, a ∈ active → a ∈ (subscribeLoop env cRef subs st active failed tr).active) ∧
    failed.length ≤ (subscribeLoop env cRef subs st active failed tr).failed.length ∧
    (∀ a, a ∈ (subscribeLoop env cRef subs st active failed tr).active →
      a ∈ active ∨ ∃ sub, sub ∈ subs ∧ a = (newSubscriptionReference sub).uid) ∧
    ((subscribeLoop env cRef subs st active failed tr).failed = [] →
      ∀ sub ∈ subs, (newSubscriptionReference sub).uid ∈
          (subscribeLoop env cRef subs st active failed tr).active ∧
        (lookup2 (subscribeLoop env cRef subs st active failed tr).st cRef
          (newSubscriptionReference sub).uid).isSome) := by
  intro subs
  induction subs with
  | nil =>
    intro st active failed tr
    exact ⟨fun c u hc => hc, fun a ha => ha, le_refl _,
      fun a ha => Or.inl ha, fun _ sub hs => absurd hs (List.not_mem_nil sub)⟩
  | cons sub rest ih =>
    intro st active failed tr
    simp only [subscribeLoop]
    cases hl : lookup2 st cRef (newSubscriptionReference sub).uid with
    | some h =>
      have ihh := ih st ((newSubscriptionReference sub).uid :: active) failed tr
      refine ⟨ihh.1, fun a ha => ihh.2.1 a (List.mem_cons_of_mem _ ha),
        ihh.2.2.1, ?_, ?_⟩
      · intro a ha
        rcases ihh.2.2.2.1 a ha with ha' | ⟨sub', hs', he'⟩
        · rcases List.mem_cons.mp ha' with he | hm
          · exact Or.inr ⟨sub, List.mem_cons_self _ _, he⟩
          · exact Or.inl hm
        · exact Or.inr ⟨sub', List.mem_cons_of_mem _ hs', he'⟩
      · intro hf sub' hs'
        rcases List.mem_cons.mp hs' with he | hm
        · subst he
          refine ⟨ihh.2.1 _ (List.mem_cons_self _ _), ihh.1 cRef _ ?_⟩
          rw [hl]
          rfl
        · exact ihh.2.2.2.2 hf sub' hm
    | none =>
      cases hr : (subscribe env cRef (newSubscriptionReference sub)).result with
      | error e =>
        have ihh := ih st active
          (mapInsert failed (newSubscriptionReference sub).toSpec e)
          (tr ++ (subscribe env cRef (newSubscriptionReference sub)).trace)
        refine ⟨ihh.1, ihh.2.1,
          le_trans (length_le_mapInsert failed _ e) ihh.2.2.1, ?_, ?_⟩
        · intro a ha
          rcases ihh.2.2.2.1 a ha with ha' | ⟨sub', hs', he'⟩
          · exact Or.inl ha'
          · exact Or.inr ⟨sub', List.mem_cons_of_mem _ hs', he'⟩
        · intro hf
          exfalso
          have h1 := ihh.2.2.1
          rw [hf] at h1
          simp at h1
          exact mapInsert_ne_nil failed (newSubscriptionReference sub).toSpec e h1
      | ok h =>
        have ihh := ih (insert2 st cRef (newSubscriptionReference sub).uid h)
          ((newSubscriptionReference sub).uid :: active) failed
          (tr ++ (subscribe env cRef (newSubscriptionReference sub)).trace)
        refine ⟨?_, fun a ha => ihh.2.1 a (List.mem_cons_of_mem _ ha),
          ihh.2.2.1, ?_, ?_⟩
        · intro c u hc
          exact ihh.1 c u (lookup2_insert2_isSome st cRef _ h c u hc)
        · intro a ha
          rcases ihh.2.2.2.1 a ha with ha' | ⟨sub', hs', he'⟩
          · rcases List.mem_cons.mp ha' with he | hm
            · exact Or.inr ⟨sub, List.mem_cons_self _ _, he⟩
            · exact Or.inl hm
          · exact Or.inr ⟨sub', List.mem_cons_of_mem _ hs', he'⟩
        · intro hf sub' hs'
          rcases List.mem_cons.mp hs' with he | hm
          · subst he
            refine ⟨ihh.2.1 _ (List.mem_cons_self _ _), ihh.1 cRef _ ?_⟩
            rw [lookup2_insert2_self]
            rfl
          · exact ihh.2.2.2.2 hf sub' hm

theorem subscribeLoop_all_present (env : BackendEnv) (cRef : ChannelReference) :
    ∀ (subs : List SubscriberSpec) (st : Registry) (active : List UID)
      (failed : List (SubscriberSpec × Err)) (tr : List Ev),
    (∀ sub ∈ subs, (lookup2 st cRef (newSubscriptionReference sub).uid).isSome) →
    (subscribeLoop env cRef subs st active failed tr).st = st ∧
    (subscribeLoop env cRef subs st active failed tr).failed = failed ∧
    (subscribeLoop env cRef subs st active failed tr).trace = tr := by
  intro subs
  induction subs with
  | nil => exact fun st active failed tr _ => ⟨rfl, rfl, rfl⟩
  | cons sub rest ih =>
    intro st active failed tr hpres
    have hp := hpres sub (List.mem_cons_self _ _)
    obtain ⟨h, hl⟩ : ∃ h, lookup2 st cRef (newSubscriptionReference sub).uid = some h := by
      cases hx : lookup2 st cRef (newSubscriptionReference sub).uid
      · rw [hx] at hp; cases hp
      · exact ⟨_, rfl⟩
    simp only [subscribeLoop, hl]
    exact ih st _ failed tr (fun sub' hs' => hpres sub' (List.mem_cons_of_mem _ hs'))

theorem unsubscribeLoop_all_active (env : BackendEnv) (cRef : ChannelReference) :
    ∀ (keys active : List UID) (st : Registry) (tr : List Ev),
    (∀ u ∈ keys, u ∈ active) →
    unsubscribeLoop env cRef keys active st tr = ⟨st, tr⟩ := by
  intro keys
  induction keys with
  | nil => exact fun active st tr _ => rfl
  | cons u rest ih =>
    intro active st tr hact
    simp only [unsubscribeLoop]
    rw [if_pos (hact u (List.mem_cons_self _ _))]
    exact ih active st tr (fun u' hu' => hact u' (List.mem_cons_of_mem _ hu'))

theorem unsubscribeLoop_main (env : BackendEnv) (cRef : ChannelReference) :
    ∀ (keys active : List UID) (st : Registry) (tr : List Ev),
    RegistryWF st →
    RegistryWF (unsubscribeLoop env cRef keys active st tr).st ∧
    (∀ e, e ∈ tr → e ∈ (unsubscribeLoop env cRef keys active st tr).trace) ∧
    (∀ u, u ∈ active →
      lookup2 (unsubscribeLoop env cRef keys active st tr).st cRef u =
        lookup2 st cRef u) ∧
    (∀ c u h, lookup2 (unsubscribeLoop env cRef keys active st tr).st c u = some h →
      lookup2 st c u = some h) ∧
    (noFailedUnsub (unsubscribeLoop env cRef keys active st tr).trace = true →
      ∀ u, u ∈ keys → u ∈ active ∨
        lookup2 (unsubscribeLoop env cRef keys active st tr).st cRef u = none) := by
  intro keys
  induction keys with
  | nil =>
    intro active st tr hWF
    exact ⟨hWF, fun e he => he, fun u _ => rfl, fun c u h hs => hs,
      fun _ u hu => absurd hu (List.not_mem_nil u)⟩
  | cons u rest ih =>
    intro active st tr hWF
    simp only [unsubscribeLoop]
    by_cases hu : u ∈ active
    · rw [if_pos hu]
      have ihh := ih active st tr hWF
      exact ⟨ihh.1, ihh.2.1, ihh.2.2.1, ihh.2.2.2.1, fun hnf u' hu' => by
        rcases List.mem_cons.mp hu' with he | hm
        · exact Or.inl (he ▸ hu)
        · exact ihh.2.2.2.2 hnf u' hm⟩
    · rw [if_neg hu]
      have hWF' := unsubscribe_st_WF env st cRef u hWF
      have ihh := ih active (unsubscribe env st cRef u).st
        (tr ++ (unsubscribe env st cRef u).trace) hWF'
      have hmemtr : ∀ e, e ∈ tr → e ∈ (unsubscribeLoop env cRef rest active
          (unsubscribe env st cRef u).st
          (tr ++ (unsubscribe env st cRef u).trace)).trace :=
        fun e he => ihh.2.1 e (List.mem_append_left _ he)
      have hactpres : ∀ u', u' ∈ active →
          lookup2 (unsubscribeLoop env cRef rest active
            (unsubscribe env st cRef u).st
            (tr ++ (unsubscribe env st cRef u).trace)).st cRef u' =
            lookup2 st cRef u' := by
        intro u' hu'
        have hne : u' ≠ u := fun he => hu (he ▸ hu')
        rw [ihh.2.2.1 u' hu']
        exact unsubscribe_lookup2_pres env st cRef u cRef u' (fun hp => hne hp.2)
      have hsomerev : ∀ c u'' h, lookup2 (unsubscribeLoop env cRef rest active
          (unsubscribe env st cRef u).st
          (tr ++ (unsubscribe env st cRef u).trace)).st c u'' = some h →
          lookup2 st c u'' = some h := by
        intro c u'' h hs
        exact unsubscribe_some_rev env st cRef u c u'' h hWF (ihh.2.2.2.1 c u'' h hs)
      refine ⟨ihh.1, hmemtr, hactpres, hsomerev, ?_⟩
      intro hnf u' hu'
      rcases List.mem_cons.mp hu' with he | hm
      · subst he
        right
        cases hl : lookup2 st cRef u' with
        | none =>
          have hn' : lookup2 (unsubscribe env st cRef u').st cRef u' = none :=
            unsubscribe_none_pres env st cRef u' cRef u' hl
          cases hfin : lookup2 (unsubscribeLoop env cRef rest active
              (unsubscribe env st cRef u').st
              (tr ++ (unsubscribe env st cRef u').trace)).st cRef u' with
          | none => rfl
          | some h =>
            rw [ihh.2.2.2.1 cRef u' h hfin] at hn'
            cases hn'
        | some h =>
          cases ho : env.unsubscribeOutcome cRef u' h with
          | some e =>
            exfalso
            have hrt : (unsubscribe env st cRef u').trace =
                [.unsubscribeOp cRef u' h (some e)] := by
              simp only [unsubscribe, hl, ho]
            have hev : Ev.unsubscribeOp cRef u' h (some e) ∈
                (tr ++ (unsubscribe env st cRef u').trace) := by
              rw [hrt]
              exact List.mem_append_right _ (List.mem_singleton.mpr rfl)
            exact noFailedUnsub_no_fail _ hnf cRef u' h e (ihh.2.1 _ hev)
          | none =>
            have hn' : lookup2 (unsubscribe env st cRef u').st cRef u' = none := by
              simp only [unsubscribe, hl, ho]
              exact lookup2_erase2_self st cRef u' hWF
            cases hfin : lookup2 (unsubscribeLoop env cRef rest active
                (unsubscribe env st cRef u').st
                (tr ++ (unsubscribe env st cRef u').trace)).st cRef u' with
            | none => rfl
            | some h' =>
              rw [ihh.2.2.2.1 cRef u' h' hfin] at hn'
              cases hn'
      · exact ihh.2.2.2.2 hnf u' hm

/-- A steady-state call on a registry whose channel entry already holds
exactly the desired uids does nothing: no state change, no failures, no
backend events. -/
theorem updateSteady_noop (env : BackendEnv) (cRef : ChannelReference)
    (subs : List SubscriberSpec) (S : Registry)
    (hap : ∀ sub ∈ subs, (lookup2 S cRef (newSubscriptionReference sub).uid).isSome)
    (hne : subs ≠ [])
    (hkeysact : ∀ u h', lookup2 S cRef u = some h' →
      ∃ sub, sub ∈ subs ∧ u = (newSubscriptionReference sub).uid) :
    updateSteady env cRef subs S = ⟨S, [], none, []⟩ := by
  obtain ⟨s₀, hs₀⟩ := List.exists_mem_of_ne_nil subs hne
  obtain ⟨h₀, hl₀⟩ : ∃ h, lookup2 S cRef (newSubscriptionReference s₀).uid = some h := by
    have hx := hap s₀ hs₀
    cases hy : lookup2 S cRef (newSubscriptionReference s₀).uid
    · rw [hy] at hx; cases hx
    · exact ⟨_, rfl⟩
  obtain ⟨m, hm, hmem₀⟩ := lookup2_some_inner S cRef _ h₀ hl₀
  have hpre : (mapLookup S cRef).isSome := by rw [hm]; rfl
  have hmne : m ≠ [] := by
    intro he
    rw [he] at hmem₀
    exact absurd hmem₀ (List.not_mem_nil _)
  rw [updateSteady_eq, ensureChannel_of_isSome S cRef hpre]
  obtain ⟨hst', hfa', htr'⟩ := subscribeLoop_all_present env cRef subs S [] [] [] hap
  rw [hst', hfa', htr']
  have sm2 := subscribeLoop_main env cRef subs S [] [] []
  have hact : ∀ u ∈ ((mapLookup S cRef).getD []).map (·.1),
      u ∈ (subscribeLoop env cRef subs S [] [] []).active := by
    intro u hu
    rw [hm] at hu
    simp only [Option.getD_some] at hu
    have hsome : (lookup2 S cRef u).isSome := by
      simp only [lookup2, hm]
      exact mapLookup_isSome_of_mem_keys hu
    obtain ⟨h', hl'⟩ : ∃ h', lookup2 S cRef u = some h' := by
      cases hx : lookup2 S cRef u
      · rw [hx] at hsome; cases hsome
      · exact ⟨_, rfl⟩
    obtain ⟨sub, hsub, hequ⟩ := hkeysact u h' hl'
    rw [hequ]
    exact (sm2.2.2.2.2 hfa' sub hsub).1
  rw [unsubscribeLoop_all_active env cRef (((mapLookup S cRef).getD []).map (·.1))
    (subscribeLoop env cRef subs S [] [] []).active S [] hact]
  simp only [finishDelete]
  rw [if_neg ?hc]
  case hc =>
    rw [hm]
    simp only [Option.getD_some]
    rw [List.length_eq_zero]
    exact hmne

/-! ## Claim theorems -/

/-- C10: for every input and registry state, `UpdateSubscriptions` returns
`nil` as its second (fatal error) result: failures are recorded in the
per-subscriber map or logged, never raised as the call's error. -/
theorem C10_never_fatal (env : BackendEnv) (st : Registry) (name ns : String)
    (subscribers : List SubscriberSpec) (isFinalizer : Bool) :
    (UpdateSubscriptions env st name ns subscribers isFinalizer).fatal = none := by
  simp only [UpdateSubscriptions]
  by_cases hc : (subscribers.isEmpty || isFinalizer) = true
  · rw [if_pos hc]
    simp only [updateTeardown]
    cases mapLookup st ⟨name, ns⟩ <;> rfl
  · rw [if_neg hc]
    simp only [updateSteady, steadyStale, finishDelete]
    split <;> rfl

/-- C4: for every backend message delivered to the callback, `Ack` is
called exactly once when message construction succeeds and dispatch
returns no error, and never when construction fails, dispatch errors,
or the handler panics; an `Ack` error is logged but the callback never
fails (nothing escapes the recover). -/
theorem C4_ack_exactly_on_success (env : McbEnv) :
    (mcb env).acks = (if env.newMessage.isOk && env.dispatch.isOk then 1 else 0) ∧
    (mcb env).raised = false ∧
    (mcb env).ackErrorLogged =
      (env.newMessage.isOk && env.dispatch.isOk && env.ackErr.isSome) := by
  cases hm : env.newMessage <;> cases hd : env.dispatch <;>
    simp [mcb, Step.isOk, hm, hd]

/-- C9: the backend subject used both for publishing (HTTP ingress) and
for subscribing equals `ref.Name + "." + ref.Namespace`. -/
theorem C9_subject_naming (env : BackendEnv) (penv : PublishEnv)
    (c : ChannelReference) (sr : subscriptionReference) :
    getSubject c = c.name ++ "." ++ c.ns ∧
    (subscribe env c sr).trace.all (subjOk c) = true ∧
    (messageReceiverFunc penv c).trace.all (subjOk c) = true := by
  refine ⟨rfl, ?_, ?_⟩
  · simp only [subscribe]
    by_cases hc : env.connAvailable = false
    · rw [if_pos hc]; rfl
    · rw [if_neg hc]
      cases hs : env.subscribeOutcome c sr with
      | error e =>
        by_cases he : e = errConnectionClosed <;> simp [subjOk, getSubject, he]
      | ok h => simp [subjOk, getSubject]
  · simp only [messageReceiverFunc]
    by_cases hc : penv.connAvailable = false
    · rw [if_pos hc]; rfl
    · rw [if_neg hc]
      cases hs : penv.senderCreateErr with
      | some e => rfl
      | none =>
        cases hs2 : penv.sendErr with
        | some e =>
          by_cases he : e = errConnectionClosed <;> simp [subjOk, getSubject, he]
        | none => simp [subjOk, getSubject]

/-- C7: when the publish in the HTTP receive path or the backend
subscribe returns an error, `signalReconnect` happens exactly when that
error equals `ErrConnectionClosed`, and the error itself is returned to
the caller (wrapped, for the receive path). -/
theorem C7_conn_closed_signals_reconnect (penv : PublishEnv) (env : BackendEnv)
    (c : ChannelReference) (sr : subscriptionReference) (e e' : Err)
    (hp : penv.connAvailable = true) (hs : penv.senderCreateErr = none)
    (he : penv.sendErr = some e)
    (hc : env.connAvailable = true) (hb : env.subscribeOutcome c sr = .error e') :
    ((Ev.reconnectSignal ∈ (messageReceiverFunc penv c).trace) ↔
      e = errConnectionClosed) ∧
    (messageReceiverFunc penv c).result = some (.wrapped
      (if e = errConnectionClosed then
        "error during send - connection to NATSS has been lost, attempting to reconnect"
      else "error during send") e) ∧
    ((Ev.reconnectSignal ∈ (subscribe env c sr).trace) ↔
      e' = errConnectionClosed) ∧
    (subscribe env c sr).result = .error e' := by
  by_cases hce : e = errConnectionClosed <;> by_cases hce' : e' = errConnectionClosed <;>
    simp [messageReceiverFunc, subscribe, hp, hs, he, hc, hb, hce, hce']

/-- C7 witness: with a backend that reports `ErrConnectionClosed` on
both send and subscribe, the reconnect signal is observed on both
paths. -/
theorem C7_witness :
    (Ev.reconnectSignal ∈
      (messageReceiverFunc ⟨true, none, some errConnectionClosed⟩
        ⟨"c1", "n1"⟩).trace) ∧
    (Ev.reconnectSignal ∈
      (subscribe ⟨true, fun _ _ => Except.error errConnectionClosed, fun _ _ _ => none⟩
        ⟨"c1", "n1"⟩ ⟨"u1", "s", "r", "d"⟩).trace) :=
  ⟨((C7_conn_closed_signals_reconnect ⟨true, none, some errConnectionClosed⟩
      ⟨true, fun _ _ => Except.error errConnectionClosed, fun _ _ _ => none⟩
      ⟨"c1", "n1"⟩ ⟨"u1", "s", "r", "d"⟩ errConnectionClosed errConnectionClosed
      rfl rfl rfl rfl rfl).1).mpr rfl,
   ((C7_conn_closed_signals_reconnect ⟨true, none, some errConnectionClosed⟩
      ⟨true, fun _ _ => Except.error errConnectionClosed, fun _ _ _ => none⟩
      ⟨"c1", "n1"⟩ ⟨"u1", "s", "r", "d"⟩ errConnectionClosed errConnectionClosed
      rfl rfl rfl rfl rfl).2.2.1).mpr rfl⟩

/-- C2 counterexample: with a backend whose `Unsubscribe` fails, the
registry entry is NOT removed (the source only deletes it on success),
contradicting "removes the registry entry regardless of whether the
backend call succeeded". -/
theorem C2_counterexample :
    (unsubscribe ⟨true, fun _ _ => Except.ok 1, fun _ _ _ => some "unsub failed"⟩
        [(⟨"c1", "n1"⟩, [("u0", 7)])] ⟨"c1", "n1"⟩ "u0").err = some "unsub failed" ∧
    (unsubscribe ⟨true, fun _ _ => Except.ok 1, fun _ _ _ => some "unsub failed"⟩
        [(⟨"c1", "n1"⟩, [("u0", 7)])] ⟨"c1", "n1"⟩ "u0").trace =
      [.unsubscribeOp ⟨"c1", "n1"⟩ "u0" 7 (some "unsub failed")] ∧
    ¬(lookup2 (unsubscribe
        ⟨true, fun _ _ => Except.ok 1, fun _ _ _ => some "unsub failed"⟩
        [(⟨"c1", "n1"⟩, [("u0", 7)])] ⟨"c1", "n1"⟩ "u0").st
        ⟨"c1", "n1"⟩ "u0" = none) := by
  decide

/-- C2 amended: if a handle exists, `unsubscribe` invokes the backend
`Unsubscribe` exactly once and returns its error; on success it removes
the registry entry, on failure the entry is retained. -/
theorem C2_unsubscribe_amended (env : BackendEnv) (st : Registry)
    (c : ChannelReference) (u : UID) (h : Nat) (hWF : RegistryWF st)
    (hl : lookup2 st c u = some h) :
    (unsubscribe env st c u).trace =
      [.unsubscribeOp c u h (env.unsubscribeOutcome c u h)] ∧
    (unsubscribe env st c u).err = env.unsubscribeOutcome c u h ∧
    lookup2 (unsubscribe env st c u).st c u =
      (match env.unsubscribeOutcome c u h with
        | none => none
        | some _ => some h) ∧
    (unsubscribe env st c u).st =
      (match env.unsubscribeOutcome c u h with
        | none => erase2 st c u
        | some _ => st) := by
  simp only [unsubscribe, hl]
  cases ho : env.unsubscribeOutcome c u h with
  | some e => exact ⟨rfl, rfl, hl, rfl⟩
  | none => exact ⟨rfl, rfl, lookup2_erase2_self st c u hWF, rfl⟩

/-- C2 witness: on a successful backend unsubscribe the entry is
removed. -/
theorem C2_witness :
    RegistryWF [(⟨"c1", "n1"⟩, [("u0", 7)])] ∧
    lookup2 (unsubscribe ⟨true, fun _ _ => Except.ok 1, fun _ _ _ => none⟩
      [(⟨"c1", "n1"⟩, [("u0", 7)])] ⟨"c1", "n1"⟩ "u0").st ⟨"c1", "n1"⟩ "u0" = none :=
  ⟨by decide,
   (C2_unsubscribe_amended ⟨true, fun _ _ => Except.ok 1, fun _ _ _ => none⟩
     [(⟨"c1", "n1"⟩, [("u0", 7)])] ⟨"c1", "n1"⟩ "u0" 7 (by decide) (by decide)).2.2.1⟩

/-- C3: if the channel list contains two channels declaring the same
host, `ProcessChannels` returns an error naming the duplicate host and
both channels, and the installed map is unchanged, so lookups return
the pre-rebuild values. -/
theorem C3_duplicate_host_rejected (prev : HostMap) (cList l1 l2 l3 : List Channel)
    (c1 c2 : Channel) (hsplit : cList = l1 ++ (c1 :: (l2 ++ (c2 :: l3))))
    (hdup : c1.host = c2.host) :
    (ProcessChannels prev cList).hostToChannelMap = prev ∧
    (ProcessChannels prev cList).err ≠ none ∧
    errorNamesDuplicate cList (ProcessChannels prev cList).err = true ∧
    getChannelReferenceFromHost (ProcessChannels prev cList).hostToChannelMap =
      getChannelReferenceFromHost prev := by
  cases hb : newHostNameToChannelRefMap cList with
  | ok m =>
    exfalso
    have hnd := (hostMapBuild_ok_no_dup cList [] m hb).2
    have hsubc : [c1, c2].Sublist cList := by
      rw [hsplit]
      have h1 : [c2].Sublist (c2 :: l3) :=
        List.Sublist.cons₂ c2 (List.nil_sublist l3)
      have h2 : [c2].Sublist (l2 ++ c2 :: l3) :=
        h1.trans (List.sublist_append_right l2 (c2 :: l3))
      have h3 : [c1, c2].Sublist (c1 :: (l2 ++ c2 :: l3)) :=
        List.Sublist.cons₂ c1 h2
      exact h3.trans (List.sublist_append_right l1 _)
    have hsub2 : [c1.host, c2.host].Sublist (cList.map (·.host)) := by
      have := hsubc.map (·.host)
      simpa using this
    have hnd2 := hsub2.nodup hnd
    simp [hdup] at hnd2
  | error err =>
    have hpc : ProcessChannels prev cList = ⟨prev, some err⟩ := by
      simp [ProcessChannels, hb]
    obtain ⟨d1, hd1, d2, hd2, hh, herr⟩ :=
      (hostMapBuild_provenance cList [] cList
        (by intro k cr hk; simp [mapLookup] at hk)
        (fun c hc => hc)).2 err hb
    refine ⟨by rw [hpc], by rw [hpc]; simp, ?_, by rw [hpc]⟩
    rw [hpc]
    subst herr
    simp only [errorNamesDuplicate, Bool.and_eq_true]
    constructor
    · rw [List.any_eq_true]
      exact ⟨d1, hd1, by simp⟩
    · rw [List.any_eq_true]
      exact ⟨d2, hd2, by simp [hh]⟩

/-- C3 witness: a two-channel list sharing host `h1` is rejected and a
previously installed map survives. -/
theorem C3_witness :
    (ProcessChannels [("h0", ⟨"c0", "n0"⟩)]
      [⟨"a", "n", "h1"⟩, ⟨"b", "m", "h1"⟩]).hostToChannelMap =
      [("h0", ⟨"c0", "n0"⟩)] ∧
    (ProcessChannels [("h0", ⟨"c0", "n0"⟩)]
      [⟨"a", "n", "h1"⟩, ⟨"b", "m", "h1"⟩]).err ≠ none ∧
    errorNamesDuplicate [⟨"a", "n", "h1"⟩, ⟨"b", "m", "h1"⟩]
      (ProcessChannels [("h0", ⟨"c0", "n0"⟩)]
        [⟨"a", "n", "h1"⟩, ⟨"b", "m", "h1"⟩]).err = true ∧
    getChannelReferenceFromHost (ProcessChannels [("h0", ⟨"c0", "n0"⟩)]
      [⟨"a", "n", "h1"⟩, ⟨"b", "m", "h1"⟩]).hostToChannelMap =
      getChannelReferenceFromHost [("h0", ⟨"c0", "n0"⟩)] :=
  C3_duplicate_host_rejected [("h0", ⟨"c0", "n0"⟩)]
    [⟨"a", "n", "h1"⟩, ⟨"b", "m", "h1"⟩] [] [] []
    ⟨"a", "n", "h1"⟩ ⟨"b", "m", "h1"⟩ rfl rfl

/-- C6 counterexample: two channels with the same `(namespace, name)`
but different hosts build successfully, and the installed map sends two
distinct hostnames to the same `ChannelReference` — it is not
injective. -/
theorem C6_counterexample :
    (ProcessChannels [] [⟨"c", "n", "h1"⟩, ⟨"c", "n", "h2"⟩]).err = none ∧
    mapLookup (ProcessChannels []
      [⟨"c", "n", "h1"⟩, ⟨"c", "n", "h2"⟩]).hostToChannelMap "h1" =
      some ⟨"c", "n"⟩ ∧
    mapLookup (ProcessChannels []
      [⟨"c", "n", "h1"⟩, ⟨"c", "n", "h2"⟩]).hostToChannelMap "h2" =
      some ⟨"c", "n"⟩ ∧
    ("h1" : String) ≠ "h2" := by
  decide

/-- C6 amended: a successfully built host map is injective provided no
two distinct entries of the input list carry the same `(name, namespace)`
(the build itself only rejects duplicate hostnames). -/
theorem C6_injective_amended (cList : List Channel) (m : HostMap)
    (h1 h2 : String) (r : ChannelReference)
    (hok : newHostNameToChannelRefMap cList = .ok m)
    (hdistinct : ∀ c1, c1 ∈ cList → ∀ c2, c2 ∈ cList →
      c1.name = c2.name → c1.ns = c2.ns → c1 = c2)
    (m1 : mapLookup m h1 = some r) (m2 : mapLookup m h2 = some r) : h1 = h2 := by
  have prov := (hostMapBuild_provenance cList [] cList
    (by intro k cr hk; simp [mapLookup] at hk)
    (fun c hc => hc)).1 m hok
  obtain ⟨cA, hcA, hhostA, hrA⟩ := prov h1 r m1
  obtain ⟨cB, hcB, hhostB, hrB⟩ := prov h2 r m2
  have hr2 : cA.name = cB.name ∧ cA.ns = cB.ns := by
    rw [hrA] at hrB
    exact ⟨congrArg ChannelReference.name hrB, congrArg ChannelReference.ns hrB⟩
  have hAB : cA = cB := hdistinct cA hcA cB hcB hr2.1 hr2.2
  rw [← hhostA, ← hhostB, hAB]

/-- C6 witness: a concrete successful build with pairwise-distinct
channels, instantiating the amended injectivity. -/
theorem C6_witness :
    newHostNameToChannelRefMap [⟨"a", "n1", "hA"⟩, ⟨"b", "n2", "hB"⟩] =
      Except.ok [("hA", ⟨"a", "n1"⟩), ("hB", ⟨"b", "n2"⟩)] ∧
    ("hA" : String) = "hA" :=
  ⟨by decide,
   C6_injective_amended [⟨"a", "n1", "hA"⟩, ⟨"b", "n2", "hB"⟩]
     [("hA", ⟨"a", "n1"⟩), ("hB", ⟨"b", "n2"⟩)] "hA" "hA" ⟨"a", "n1"⟩
     (by decide) (by decide) (by decide) (by decide)⟩

/-- C5: after `UpdateSubscriptions` with `isFinalizer = true` (or an
empty subscriber list), the channel's key is absent from the registry,
`Unsubscribe` was attempted exactly once for each handle the channel
held before the call, and a channel with no registry entry sees an
empty failures map, nil error and zero backend calls. -/
theorem C5_finalizer_teardown (env : BackendEnv) (st : Registry) (name ns : String)
    (subscribers : List SubscriberSpec) (isFinalizer : Bool)
    (hWF : RegistryWF st)
    (hcond : isFinalizer = true ∨ subscribers = []) :
    mapLookup (UpdateSubscriptions env st name ns subscribers isFinalizer).st
      ⟨name, ns⟩ = none ∧
    (UpdateSubscriptions env st name ns subscribers isFinalizer).failed = [] ∧
    (UpdateSubscriptions env st name ns subscribers isFinalizer).fatal = none ∧
    countSubscribeOps
      (UpdateSubscriptions env st name ns subscribers isFinalizer).trace = 0 ∧
    countUnsubscribeOps
      (UpdateSubscriptions env st name ns subscribers isFinalizer).trace =
      ((mapLookup st ⟨name, ns⟩).getD []).length ∧
    (UpdateSubscriptions env st name ns subscribers isFinalizer).trace.length =
      ((mapLookup st ⟨name, ns⟩).getD []).length ∧
    (((mapLookup st ⟨name, ns⟩).getD []).all fun p =>
      decide (countUnsubFor
        (UpdateSubscriptions env st name ns subscribers isFinalizer).trace
        ⟨name, ns⟩ p.1 p.2 = 1)) = true := by
  have hbool : (subscribers.isEmpty || isFinalizer) = true := by
    rcases hcond with h | h <;> simp [h]
  have hupd : UpdateSubscriptions env st name ns subscribers isFinalizer =
      updateTeardown env ⟨name, ns⟩ st := by
    simp [UpdateSubscriptions, hbool]
  rw [hupd]
  cases hm : mapLookup st ⟨name, ns⟩ with
  | none =>
    simp [updateTeardown, hm, countSubscribeOps, countUnsubscribeOps]
  | some chMap =>
    have hinner : (chMap.map (·.1)).Nodup :=
      hWF.2 (⟨name, ns⟩, chMap) (mem_of_mapLookup_some hm)
    have hkeyspres : ∀ u ∈ chMap.map (·.1),
        (lookup2 st ⟨name, ns⟩ u).isSome := by
      intro u hu
      simp only [lookup2, hm]
      exact mapLookup_isSome_of_mem_keys hu
    have spec := teardownLoop_spec env ⟨name, ns⟩ (chMap.map (·.1)) st []
      hWF hinner hkeyspres
    simp only [updateTeardown, hm, Option.getD_some]
    refine ⟨mapLookup_erase_self spec.1.1, trivial, trivial, ?_, ?_, ?_, ?_⟩
    · rw [spec.2.2.2.1]; rfl
    · rw [spec.2.2.1]
      simp [countUnsubscribeOps]
    · rw [spec.2.1]
      simp
    · rw [List.all_eq_true]
      intro p hp
      rw [decide_eq_true_eq]
      have hmemk : p.1 ∈ chMap.map (·.1) := List.mem_map_of_mem (·.1) hp
      have hlp : lookup2 st ⟨name, ns⟩ p.1 = some p.2 := by
        simp only [lookup2, hm]
        exact mapLookup_of_mem_nodup hinner hp
      have := spec.2.2.2.2.1 p.1 p.2 hmemk hlp
      simpa [countUnsubFor] using this

/-- C5 witness: a channel holding two handles, one of whose unsubscribes
fails: both are attempted exactly once and the key is removed. -/
theorem C5_witness :
    mapLookup (UpdateSubscriptions
      ⟨true, fun _ _ => Except.ok 1, fun _ u _ => if u = "u1" then some "x" else none⟩
      [(⟨"c1", "n1"⟩, [("u1", 5), ("u2", 6)])] "c1" "n1" [] true).st
      ⟨"c1", "n1"⟩ = none ∧
    (UpdateSubscriptions
      ⟨true, fun _ _ => Except.ok 1, fun _ u _ => if u = "u1" then some "x" else none⟩
      [(⟨"c1", "n1"⟩, [("u1", 5), ("u2", 6)])] "c1" "n1" [] true).failed = [] ∧
    (UpdateSubscriptions
      ⟨true, fun _ _ => Except.ok 1, fun _ u _ => if u = "u1" then some "x" else none⟩
      [(⟨"c1", "n1"⟩, [("u1", 5), ("u2", 6)])] "c1" "n1" [] true).fatal = none ∧
    countSubscribeOps (UpdateSubscriptions
      ⟨true, fun _ _ => Except.ok 1, fun _ u _ => if u = "u1" then some "x" else none⟩
      [(⟨"c1", "n1"⟩, [("u1", 5), ("u2", 6)])] "c1" "n1" [] true).trace = 0 ∧
    countUnsubscribeOps (UpdateSubscriptions
      ⟨true, fun _ _ => Except.ok 1, fun _ u _ => if u = "u1" then some "x" else none⟩
      [(⟨"c1", "n1"⟩, [("u1", 5), ("u2", 6)])] "c1" "n1" [] true).trace =
      ((mapLookup ([(⟨"c1", "n1"⟩, [("u1", 5), ("u2", 6)])] : Registry) ⟨"c1", "n1"⟩).getD []).length ∧
    (UpdateSubscriptions
      ⟨true, fun _ _ => Except.ok 1, fun _ u _ => if u = "u1" then some "x" else none⟩
      [(⟨"c1", "n1"⟩, [("u1", 5), ("u2", 6)])] "c1" "n1" [] true).trace.length =
      ((mapLookup ([(⟨"c1", "n1"⟩, [("u1", 5), ("u2", 6)])] : Registry) ⟨"c1", "n1"⟩).getD []).length ∧
    (((mapLookup ([(⟨"c1", "n1"⟩, [("u1", 5), ("u2", 6)])] : Registry) ⟨"c1", "n1"⟩).getD []).all fun p =>
      decide (countUnsubFor (UpdateSubscriptions
        ⟨true, fun _ _ => Except.ok 1, fun _ u _ => if u = "u1" then some "x" else none⟩
        [(⟨"c1", "n1"⟩, [("u1", 5), ("u2", 6)])] "c1" "n1" [] true).trace
        ⟨"c1", "n1"⟩ p.1 p.2 = 1)) = true :=
  C5_finalizer_teardown
    ⟨true, fun _ _ => Except.ok 1, fun _ u _ => if u = "u1" then some "x" else none⟩
    [(⟨"c1", "n1"⟩, [("u1", 5), ("u2", 6)])] "c1" "n1" [] true
    (by decide) (Or.inl rfl)

/-- C8: for every sequence of `UpdateSubscriptions` calls starting from
the empty registry — including runs where subscribes and unsubscribes
fail — every channel key present in the resulting registry has a
non-empty inner uid-to-handle map. -/
theorem C8_inner_maps_nonempty (calls : List UpdateCall) :
    innerNonEmpty (runCalls calls) = true := by
  have main : ∀ (cs : List UpdateCall) (st : Registry), RegistryWF st →
      innerNonEmpty st = true →
      RegistryWF (cs.foldl (fun s c =>
        (UpdateSubscriptions c.env s c.name c.ns c.subscribers c.isFinalizer).st) st) ∧
      innerNonEmpty (cs.foldl (fun s c =>
        (UpdateSubscriptions c.env s c.name c.ns c.subscribers c.isFinalizer).st) st)
        = true := by
    intro cs
    induction cs with
    | nil => exact fun st hWF hNE => ⟨hWF, hNE⟩
    | cons c rest ih =>
      intro st hWF hNE
      have h1 := updateSubscriptions_inv c.env st c.name c.ns c.subscribers
        c.isFinalizer hWF hNE
      simpa only [List.foldl_cons] using ih _ h1.1 h1.2
  have hWFnil : RegistryWF ([] : Registry) := by
    refine ⟨by simp, ?_⟩
    intro p hp
    simp at hp
  exact (main calls [] hWFnil rfl).2

/-- C1 counterexample: a registry holding a stale subscription whose
backend unsubscribe persistently fails. The first reconcile returns an
empty failures map, yet the second identical call still performs a
backend unsubscribe operation — not zero as claimed. -/
theorem C1_counterexample :
    (UpdateSubscriptions ⟨true, fun _ _ => Except.ok 1, fun _ _ _ => some "boom"⟩
      [(⟨"c1", "n1"⟩, [("old", 7)])] "c1" "n1" [⟨"u1", "s", "", ""⟩] false).failed
      = [] ∧
    countUnsubscribeOps (UpdateSubscriptions
      ⟨true, fun _ _ => Except.ok 1, fun _ _ _ => some "boom"⟩
      (UpdateSubscriptions ⟨true, fun _ _ => Except.ok 1, fun _ _ _ => some "boom"⟩
        [(⟨"c1", "n1"⟩, [("old", 7)])] "c1" "n1" [⟨"u1", "s", "", ""⟩] false).st
      "c1" "n1" [⟨"u1", "s", "", ""⟩] false).trace = 1 := by
  decide

/-- C1 amended: when the first call's failures map is empty AND every
backend unsubscribe performed by the first call succeeded, a second
call with the same arguments leaves the registry exactly as it was and
performs zero backend subscribe and zero backend unsubscribe
operations. -/
theorem C1_idempotent_amended (env : BackendEnv) (st : Registry) (name ns : String)
    (subs : List SubscriberSpec) (hWF : RegistryWF st)
    (hfail : (UpdateSubscriptions env st name ns subs false).failed = [])
    (hnofail : noFailedUnsub (UpdateSubscriptions env st name ns subs false).trace
      = true) :
    (UpdateSubscriptions env (UpdateSubscriptions env st name ns subs false).st
      name ns subs false).st = (UpdateSubscriptions env st name ns subs false).st ∧
    countSubscribeOps (UpdateSubscriptions env
      (UpdateSubscriptions env st name ns subs false).st name ns subs false).trace
      = 0 ∧
    countUnsubscribeOps (UpdateSubscriptions env
      (UpdateSubscriptions env st name ns subs false).st name ns subs false).trace
      = 0 := by
  by_cases hemp : subs.isEmpty = true
  · -- teardown path on both calls
    have hupd : ∀ s, UpdateSubscriptions env s name ns subs false =
        updateTeardown env ⟨name, ns⟩ s := fun s => by
      simp [UpdateSubscriptions, hemp]
    simp only [hupd]
    simp only [updateTeardown]
    cases hm : mapLookup st ⟨name, ns⟩ with
    | none => simp [hm, countSubscribeOps, countUnsubscribeOps]
    | some chMap =>
      have tp := teardownLoop_pres env ⟨name, ns⟩ (chMap.map (·.1)) st [] hWF
      have hnone : mapLookup (mapErase (teardownLoop env ⟨name, ns⟩
          (chMap.map (·.1)) st []).st ⟨name, ns⟩) ⟨name, ns⟩ = none :=
        mapLookup_erase_self tp.1.1
      simp [hm, hnone, countSubscribeOps, countUnsubscribeOps]
  · -- steady path on both calls
    have hf0 : subs.isEmpty = false := by
      cases h : subs.isEmpty
      · rfl
      · exact absurd h hemp
    have hne : subs ≠ [] := fun h => by
      rw [h] at hf0
      simp [List.isEmpty] at hf0
    obtain ⟨s₀, hs₀⟩ := List.exists_mem_of_ne_nil subs hne
    have hupd : ∀ s, UpdateSubscriptions env s name ns subs false =
        updateSteady env ⟨name, ns⟩ subs s := fun s => by
      simp [UpdateSubscriptions, hf0]
    simp only [hupd] at hfail hnofail ⊢
    rw [updateSteady_eq] at hfail hnofail
    rw [finishDelete_failed] at hfail
    rw [finishDelete_trace] at hnofail
    -- first-call pipeline facts
    have hWF0 := ensureChannel_WF st (⟨name, ns⟩ : ChannelReference) hWF
    have hp0 := ensureChannel_present st (⟨name, ns⟩ : ChannelReference)
    have sp := subscribeLoop_pres env ⟨name, ns⟩ subs
      (ensureChannel st ⟨name, ns⟩) [] [] [] hWF0 hp0
    have sm := subscribeLoop_main env ⟨name, ns⟩ subs
      (ensureChannel st ⟨name, ns⟩) [] [] []
    have hdes1 := sm.2.2.2.2 hfail
    have um := unsubscribeLoop_main env ⟨name, ns⟩
      (((mapLookup (subscribeLoop env ⟨name, ns⟩ subs
        (ensureChannel st ⟨name, ns⟩) [] [] []).st ⟨name, ns⟩).getD []).map (·.1))
      (subscribeLoop env ⟨name, ns⟩ subs
        (ensureChannel st ⟨name, ns⟩) [] [] []).active
      (subscribeLoop env ⟨name, ns⟩ subs
        (ensureChannel st ⟨name, ns⟩) [] [] []).st
      (subscribeLoop env ⟨name, ns⟩ subs
        (ensureChannel st ⟨name, ns⟩) [] [] []).trace
      sp.1
    -- the desired uids survive the stale-removal loop
    have hdes2 : ∀ sub ∈ subs, (lookup2 (unsubscribeLoop env ⟨name, ns⟩
        (((mapLookup (subscribeLoop env ⟨name, ns⟩ subs
          (ensureChannel st ⟨name, ns⟩) [] [] []).st ⟨name, ns⟩).getD []).map (·.1))
        (subscribeLoop env ⟨name, ns⟩ subs
          (ensureChannel st ⟨name, ns⟩) [] [] []).active
        (subscribeLoop env ⟨name, ns⟩ subs
          (ensureChannel st ⟨name, ns⟩) [] [] []).st
        (subscribeLoop env ⟨name, ns⟩ subs
          (ensureChannel st ⟨name, ns⟩) [] [] []).trace).st ⟨name, ns⟩
        (newSubscriptionReference sub).uid).isSome := by
      intro sub hsub
      rw [um.2.2.1 _ (hdes1 sub hsub).1]
      exact (hdes1 sub hsub).2
    -- the epilogue keeps the channel key
    obtain ⟨h₀, hl₀⟩ : ∃ h, lookup2 (unsubscribeLoop env ⟨name, ns⟩
        (((mapLookup (subscribeLoop env ⟨name, ns⟩ subs
          (ensureChannel st ⟨name, ns⟩) [] [] []).st ⟨name, ns⟩).getD []).map (·.1))
        (subscribeLoop env ⟨name, ns⟩ subs
          (ensureChannel st ⟨name, ns⟩) [] [] []).active
        (subscribeLoop env ⟨name, ns⟩ subs
          (ensureChannel st ⟨name, ns⟩) [] [] []).st
        (subscribeLoop env ⟨name, ns⟩ subs
          (ensureChannel st ⟨name, ns⟩) [] [] []).trace).st ⟨name, ns⟩
        (newSubscriptionReference s₀).uid = some h := by
      have hx := hdes2 s₀ hs₀
      cases hy : lookup2 (unsubscribeLoop env ⟨name, ns⟩
        (((mapLookup (subscribeLoop env ⟨name, ns⟩ subs
          (ensureChannel st ⟨name, ns⟩) [] [] []).st ⟨name, ns⟩).getD []).map (·.1))
        (subscribeLoop env ⟨name, ns⟩ subs
          (ensureChannel st ⟨name, ns⟩) [] [] []).active
        (subscribeLoop env ⟨name, ns⟩ subs
          (ensureChannel st ⟨name, ns⟩) [] [] []).st
        (subscribeLoop env ⟨name, ns⟩ subs
          (ensureChannel st ⟨name, ns⟩) [] [] []).trace).st ⟨name, ns⟩
        (newSubscriptionReference s₀).uid
      · rw [hy] at hx; cases hx
      · exact ⟨_, rfl⟩
    obtain ⟨m2, hm2, hmem2⟩ := lookup2_some_inner _ _ _ _ hl₀
    have hm2ne : m2 ≠ [] := by
      intro he
      rw [he] at hmem2
      exact absurd hmem2 (List.not_mem_nil _)
    have hlen1 : ¬(((mapLookup (unsubscribeLoop env ⟨name, ns⟩
        (((mapLookup (subscribeLoop env ⟨name, ns⟩ subs
          (ensureChannel st ⟨name, ns⟩) [] [] []).st ⟨name, ns⟩).getD []).map (·.1))
        (subscribeLoop env ⟨name, ns⟩ subs
          (ensureChannel st ⟨name, ns⟩) [] [] []).active
        (subscribeLoop env ⟨name, ns⟩ subs
          (ensureChannel st ⟨name, ns⟩) [] [] []).st
        (subscribeLoop env ⟨name, ns⟩ subs
          (ensureChannel st ⟨name, ns⟩) [] [] []).trace).st ⟨name, ns⟩).getD
        []).length = 0) := by
      rw [hm2]
      simp only [Option.getD_some]
      rw [List.length_eq_zero]
      exact hm2ne
    have hSdef : (updateSteady env (⟨name, ns⟩ : ChannelReference) subs st).st =
        (unsubscribeLoop env ⟨name, ns⟩
          (((mapLookup (subscribeLoop env ⟨name, ns⟩ subs
            (ensureChannel st ⟨name, ns⟩) [] [] []).st ⟨name, ns⟩).getD []).map (·.1))
          (subscribeLoop env ⟨name, ns⟩ subs
            (ensureChannel st ⟨name, ns⟩) [] [] []).active
          (subscribeLoop env ⟨name, ns⟩ subs
            (ensureChannel st ⟨name, ns⟩) [] [] []).st
          (subscribeLoop env ⟨name, ns⟩ subs
            (ensureChannel st ⟨name, ns⟩) [] [] []).trace).st := by
      rw [updateSteady_eq]
      exact finishDelete_st_of_nonempty _ _ _ hlen1
    -- hypotheses of the no-op lemma for the second call
    have hap : ∀ sub ∈ subs, (lookup2
        (updateSteady env (⟨name, ns⟩ : ChannelReference) subs st).st ⟨name, ns⟩
        (newSubscriptionReference sub).uid).isSome := by
      intro sub hsub
      rw [hSdef]
      exact hdes2 sub hsub
    have hkeysact : ∀ u h', lookup2
        (updateSteady env (⟨name, ns⟩ : ChannelReference) subs st).st ⟨name, ns⟩
        u = some h' →
        ∃ sub, sub ∈ subs ∧ u = (newSubscriptionReference sub).uid := by
      intro u h' hl'
      rw [hSdef] at hl'
      have hr1some : lookup2 (subscribeLoop env ⟨name, ns⟩ subs
          (ensureChannel st ⟨name, ns⟩) [] [] []).st ⟨name, ns⟩ u = some h' :=
        um.2.2.2.1 _ _ _ hl'
      obtain ⟨m1, hm1, hmem1⟩ := lookup2_some_inner _ _ _ _ hr1some
      have hukeys : u ∈ ((mapLookup (subscribeLoop env ⟨name, ns⟩ subs
          (ensureChannel st ⟨name, ns⟩) [] [] []).st ⟨name, ns⟩).getD []).map (·.1) := by
        rw [hm1]
        simp only [Option.getD_some]
        exact List.mem_map_of_mem (·.1) hmem1
      rcases um.2.2.2.2 hnofail u hukeys with hact | hnone
      · rcases sm.2.2.2.1 u hact with habs | hex
        · exact absurd habs (List.not_mem_nil u)
        · exact hex
      · rw [hnone] at hl'
        cases hl'
    have hfin := updateSteady_noop env ⟨name, ns⟩ subs
      (updateSteady env (⟨name, ns⟩ : ChannelReference) subs st).st hap hne hkeysact
    rw [hfin]
    exact ⟨rfl, rfl, rfl⟩

/-- C1 witness for the amended idempotence: a fresh registry, one
subscriber, a backend that succeeds; re-running the call changes
nothing and performs no backend operations. -/
theorem C1_witness :
    (UpdateSubscriptions ⟨true, fun _ _ => Except.ok 1, fun _ _ _ => none⟩
      (UpdateSubscriptions ⟨true, fun _ _ => Except.ok 1, fun _ _ _ => none⟩
        [] "c1" "n1" [⟨"u1", "s", "", ""⟩] false).st
      "c1" "n1" [⟨"u1", "s", "", ""⟩] false).st =
      (UpdateSubscriptions ⟨true, fun _ _ => Except.ok 1, fun _ _ _ => none⟩
        [] "c1" "n1" [⟨"u1", "s", "", ""⟩] false).st ∧
    countSubscribeOps (UpdateSubscriptions
      ⟨true, fun _ _ => Except.ok 1, fun _ _ _ => none⟩
      (UpdateSubscriptions ⟨true, fun _ _ => Except.ok 1, fun _ _ _ => none⟩
        [] "c1" "n1" [⟨"u1", "s", "", ""⟩] false).st
      "c1" "n1" [⟨"u1", "s", "", ""⟩] false).trace = 0 ∧
    countUnsubscribeOps (UpdateSubscriptions
      ⟨true, fun _ _ => Except.ok 1, fun _ _ _ => none⟩
      (UpdateSubscriptions ⟨true, fun _ _ => Except.ok 1, fun _ _ _ => none⟩
        [] "c1" "n1" [⟨"u1", "s", "", ""⟩] false).st
      "c1" "n1" [⟨"u1", "s", "", ""⟩] false).trace = 0 :=
  C1_idempotent_amended ⟨true, fun _ _ => Except.ok 1, fun _ _ _ => none⟩
    [] "c1" "n1" [⟨"u1", "s", "", ""⟩] (by decide) (by decide) (by decide)

end Natss
